import Mathlib

/-!
Shallow embedding of the per-frame simulation core of the territory-war
canvas game (src/app/page.tsx), together with proofs about it.

Modelling conventions:
* JS numbers carrying continuous quantities (positions, velocities, radii,
  dimensions) are embedded as exact rationals `ℚ`; frame counters and effect
  timers, which the code only ever sets to non-negative integers and
  decrements while positive, are embedded as `Nat`.
* `Math.floor` on a rational is `Int.floor`.
* The comparison `Math.sqrt (dx*dx + dy*dy) < t` is embedded exactly (over the
  reals, `sqrt s < t` iff `0 < t ∧ s < t*t`) as `distLt`.
* Where the value of `Math.sqrt` itself is needed (magnet normalisation,
  redirect speed magnitude) we use `rsqrt`, which is exact whenever its
  argument is a perfect rational square and returns 0 otherwise; theorems that
  depend on the value only use it at perfect-square inputs.
* `Math.random()` draws are injected inputs: the per-frame environment `Env`
  carries the spawned power-up's position/type draw and, for each ball index,
  the `(cos θ, sin θ)` pair of the random redirect angle.
* The game loop mutates `Ball` objects held in the shared array
  `ballsRef.current` in place while collecting references into `newBalls`;
  this aliasing is modelled by an indexed store `arr : List Ball` plus an
  order-preserving list of entries (`Entry.ref i` for a reference to slot `i`,
  `Entry.clone b` for a freshly created clone object), resolved against the
  final store at the end of the frame.
-/

namespace TerritoryWar

def COLS : Nat := 20

def ROWS : Nat := 12

def TRAIL_LENGTH : Nat := 12

def BASE_SPEED : ℚ := 4

def POWERUP_DURATION : Nat := 180

def POWERUP_SPAWN_INTERVAL : Nat := 300

def HIGHSCORE_DELAY : Nat := 600

inductive Team where
  | left
  | right
deriving DecidableEq, Repr, Inhabited

/-- The runtime string value of a team tag (`type Team = "left" | "right"`). -/
def Team.str : Team → String
  | .left => "left"
  | .right => "right"

inductive PowerUpType where
  | split
  | giant
  | speed
  | freeze
  | magnet
deriving DecidableEq, Repr, Inhabited

structure Ball where
  id : Nat
  x : ℚ
  y : ℚ
  vx : ℚ
  vy : ℚ
  team : Team
  radius : ℚ
  baseRadius : ℚ
  trail : List (ℚ × ℚ)
  frozen : Nat
  giant : Nat
  speed : Nat
  isClone : Bool
  cloneExpires : Nat
deriving DecidableEq, Repr

structure PowerUp where
  id : Nat
  x : ℚ
  y : ℚ
  type : PowerUpType
  spawnTime : Nat
deriving DecidableEq, Repr

structure Tile where
  team : Team
deriving DecidableEq, Repr

abbrev Tiles := List (List Tile)

/-- Default ball used only to totalise list lookups that the game's geometry
keeps in range. -/
def defBall : Ball :=
  { id := 0, x := 0, y := 0, vx := 0, vy := 0, team := .left, radius := 0,
    baseRadius := 0, trail := [], frozen := 0, giant := 0, speed := 0,
    isClone := false, cloneExpires := 0 }

instance : Inhabited Ball := ⟨defBall⟩

/-- `createInitialTiles`: left half of the columns owned by the left team,
right half by the right team. -/
def createInitialTiles : Tiles :=
  (List.range ROWS).map (fun _ =>
    (List.range COLS).map (fun col => ⟨if col < COLS / 2 then .left else .right⟩))

/-- Read a tile; callers bounds-check first, exactly as the source does. -/
def getTile (t : Tiles) (r c : Nat) : Tile := (t.getD r []).getD c ⟨Team.left⟩

/-- Overwrite a tile in the grid copy (`newTiles[r][c] = { team }`);
out-of-range writes are no-ops, mirroring the source's bounds guards. -/
def setTile (t : Tiles) (r c : Nat) (team : Team) : Tiles :=
  t.set r ((t.getD r []).set c ⟨team⟩)

/-- `countTiles`, left component: cells whose owner is the left team. -/
def countLeft (t : Tiles) : Nat :=
  (t.map (fun row => row.countP (fun c => c.team = Team.left))).sum

/-- `countTiles`, right component: every cell not owned by the left team. -/
def countRight (t : Tiles) : Nat :=
  (t.map (fun row => row.countP (fun c => ¬ c.team = Team.left))).sum

/-- The grid is a well-formed `ROWS × COLS` array. -/
def TilesDims (t : Tiles) : Prop :=
  t.length = ROWS ∧ ∀ row ∈ t, row.length = COLS

instance (t : Tiles) : Decidable (TilesDims t) :=
  inferInstanceAs (Decidable (_ ∧ _))

/-- Exact natural square root: the root when the input is a perfect square,
0 otherwise. -/
def nsq (n : Nat) : Nat :=
  (List.range (n + 1)).foldl (fun acc k => if k * k = n then k else acc) 0

/-- Model of `Math.sqrt` on exact rationals: exact on perfect rational squares
(numerator and denominator of the reduced form both perfect squares),
0 otherwise. -/
def rsqrt (q : ℚ) : ℚ :=
  if q ≤ 0 then 0 else (nsq q.num.toNat : ℚ) / (nsq q.den : ℚ)

/-- Exact embedding of the test `Math.sqrt (dx*dx + dy*dy) < t`: over the
reals, `sqrt s < t` holds iff `0 < t ∧ s < t*t`. -/
def distLt (dx dy t : ℚ) : Prop := 0 < t ∧ dx * dx + dy * dy < t * t

instance (dx dy t : ℚ) : Decidable (distLt dx dy t) :=
  inferInstanceAs (Decidable (_ ∧ _))

/-- `spawnPowerUp`, with the two `Math.random()` draws `u, v ∈ [0,1)`, the
random type draw, the id counter and `Date.now()` injected. -/
def spawnPowerUp (width height u v : ℚ) (ty : PowerUpType) (ctr now : Nat) : PowerUp :=
  { id := ctr, x := u * (width - 60) + 30, y := v * (height - 60) + 30,
    type := ty, spawnTime := now }

/-- `createInitialBalls`, with the two random initial vertical velocities
injected. -/
def createInitialBalls (tileWidth tileHeight vy1 vy2 : ℚ) (ctr : Nat) : List Ball :=
  let baseRadius := min tileWidth tileHeight * (2/5)
  [ { id := ctr, x := (COLS : ℚ) * (1/4) * tileWidth, y := ((ROWS : ℚ) / 2) * tileHeight,
      vx := BASE_SPEED, vy := vy1, team := .left, radius := baseRadius,
      baseRadius := baseRadius, trail := [], frozen := 0, giant := 0, speed := 0,
      isClone := false, cloneExpires := 0 },
    { id := ctr + 1, x := (COLS : ℚ) * (3/4) * tileWidth, y := ((ROWS : ℚ) / 2) * tileHeight,
      vx := -BASE_SPEED, vy := vy2, team := .right, radius := baseRadius,
      baseRadius := baseRadius, trail := [], frozen := 0, giant := 0, speed := 0,
      isClone := false, cloneExpires := 0 } ]

/-- Per-frame external inputs: canvas dimensions, the global speed slider, and
this frame's random draws (power-up spawn position/type, `Date.now()`, and per
ball index the `(cos θ, sin θ)` of the random redirect angle). -/
structure Env where
  width : ℚ
  height : ℚ
  speedMultiplier : ℚ
  spawnU : ℚ
  spawnV : ℚ
  spawnType : PowerUpType
  now : Nat
  redirectDir : Nat → ℚ × ℚ

/-- An element of `newBalls`: either a reference to slot `i` of the frame's
ball array (the source pushes the array's objects, which may still be mutated
by a later ball's freeze pickup), or a freshly created clone object. -/
inductive Entry where
  | ref (i : Nat)
  | clone (b : Ball)
deriving DecidableEq, Repr

/-- Timer decay: decrement `frozen`, `giant` (reverting the radius when it
expires, holding it at 2.5× while active) and `speed`, each if positive. -/
def tickTimers (b : Ball) : Ball :=
  let b1 := if b.frozen > 0 then { b with frozen := b.frozen - 1 } else b
  let b2 :=
    if b1.giant > 0 then
      let g := b1.giant - 1
      { b1 with giant := g,
                radius := if g > 0 then b1.baseRadius * (5/2) else b1.baseRadius }
    else b1
  if b2.speed > 0 then { b2 with speed := b2.speed - 1 } else b2

/-- Trail update: push the current position, shift the oldest out when the
length exceeds `TRAIL_LENGTH`. -/
def pushTrail (b : Ball) : Ball :=
  let tr := b.trail ++ [(b.x, b.y)]
  { b with trail := if tr.length > TRAIL_LENGTH then tr.drop 1 else tr }

/-- The dead magnet-pull accumulators of the source (`magnetPullX/Y`): the
loop that would set them has an empty body, so they are always 0. -/
def magnetPullX : ℚ := 0

def magnetPullY : ℚ := 0

/-- Euler position integration (`ball.x += (ball.vx + magnetPullX) * speedMult`). -/
def moveBall (speedMult : ℚ) (b : Ball) : Ball :=
  { b with x := b.x + (b.vx + magnetPullX) * speedMult,
           y := b.y + (b.vy + magnetPullY) * speedMult }

/-- Boundary collision: the four independent edge checks of the source, in
source order (low x, high x, low y, high y), each check reading the position
and velocity the previous one left behind. -/
def boundary (width height : ℚ) (b : Ball) : Ball :=
  let x1 := if b.x - b.radius < 0 then b.radius else b.x
  let vx1 := if b.x - b.radius < 0 then |b.vx| else b.vx
  let x2 := if x1 + b.radius > width then width - b.radius else x1
  let vx2 := if x1 + b.radius > width then -|vx1| else vx1
  let y1 := if b.y - b.radius < 0 then b.radius else b.y
  let vy1 := if b.y - b.radius < 0 then |b.vy| else b.vy
  let y2 := if y1 + b.radius > height then height - b.radius else y1
  let vy2 := if y1 + b.radius > height then -|vy1| else vy1
  { b with x := x2, vx := vx2, y := y2, vy := vy2 }

/-- The magnet pickup's target x: the source compares the team tag against
"white", a value the `Team` type never takes, so the test is always false. -/
def magnetTargetX (team : Team) (width : ℚ) : ℚ :=
  if team.str = "white" then width * (3/4) else width * (1/4)

/-- Magnet pickup effect on the picking ball (`case "magnet"`). -/
def magnetUpdate (width height : ℚ) (b : Ball) : Ball :=
  let targetX := magnetTargetX b.team width
  let dx := targetX - b.x
  let dy := height / 2 - b.y
  let dist := rsqrt (dx * dx + dy * dy)
  if dist > 0 then
    { b with vx := dx / dist * BASE_SPEED * (3/2), vy := dy / dist * BASE_SPEED * (1/2) }
  else b

/-- Freeze pickup effect: set `frozen` on every ball of the opposing team in
the shared array (`ballsRef.current`). -/
def applyFreeze (team : Team) (arr : List Ball) : List Ball :=
  arr.map (fun o => if o.team ≠ team then { o with frozen := POWERUP_DURATION } else o)

/-- The clone created by a split pickup. -/
def makeClone (ctr : Nat) (b : Ball) : Ball :=
  { id := ctr, x := b.x, y := b.y, vx := -b.vy, vy := b.vx, team := b.team,
    radius := b.baseRadius * (7/10), baseRadius := b.baseRadius * (7/10),
    trail := [], frozen := 0, giant := 0, speed := 0, isClone := true,
    cloneExpires := POWERUP_DURATION * 2 }

/-- State threaded through one ball's power-up collision loop. -/
structure PickupState where
  b : Ball
  arr : List Ball
  entries : List Entry
  ballIdCtr : Nat
  removed : List Nat
  apps : List (Nat × Nat × PowerUpType)

/-- One iteration of the power-up collision loop for ball index `i`: if the
ball overlaps the power-up, record it for removal, log the application and
apply its effect. -/
def applyPowerUp (env : Env) (i : Nat) (s : PickupState) (p : PowerUp) : PickupState :=
  if distLt (s.b.x - p.x) (s.b.y - p.y) (s.b.radius + 14) then
    let s1 := { s with removed := s.removed ++ [p.id], apps := s.apps ++ [(i, p.id, p.type)] }
    match p.type with
    | .split =>
        { s1 with entries := s1.entries ++ [.clone (makeClone s1.ballIdCtr s1.b)],
                  ballIdCtr := s1.ballIdCtr + 1 }
    | .giant =>
        { s1 with b := { s1.b with giant := POWERUP_DURATION,
                                   radius := s1.b.baseRadius * (5/2) } }
    | .speed =>
        { s1 with b := { s1.b with speed := POWERUP_DURATION } }
    | .freeze =>
        { s1 with arr := applyFreeze s1.b.team s1.arr }
    | .magnet =>
        { s1 with b := magnetUpdate env.width env.height s1.b }
  else s

/-- The power-up collision loop over the current registry. -/
def pickupLoop (env : Env) (i : Nat) : List PowerUp → PickupState → PickupState
  | [], s => s
  | p :: rest, s => pickupLoop env i rest (applyPowerUp env i s p)

/-- The condition of the post-conversion random redirect: the ball's centre
cell is in range and the *frame-start* snapshot (`tilesRef.current`) has it
owned by the other team. -/
def redirectCond (oldTiles : Tiles) (tileWidth tileHeight : ℚ) (b : Ball) : Prop :=
  let col : Int := Int.floor (b.x / tileWidth)
  let row : Int := Int.floor (b.y / tileHeight)
  0 ≤ row ∧ row < (ROWS : Int) ∧ 0 ≤ col ∧ col < (COLS : Int) ∧
    ¬ (getTile oldTiles row.toNat col.toNat).team = b.team

instance (oldTiles : Tiles) (tileWidth tileHeight : ℚ) (b : Ball) :
    Decidable (redirectCond oldTiles tileWidth tileHeight b) :=
  inferInstanceAs (Decidable (_ ∧ _))

/-- The random redirect: a fresh heading at the current speed magnitude, the
`(cos θ, sin θ)` draw injected as `dir`. -/
def applyRedirect (dir : ℚ × ℚ) (b : Ball) : Ball :=
  let currentSpeed := rsqrt (b.vx * b.vx + b.vy * b.vy)
  { b with vx := dir.1 * currentSpeed, vy := dir.2 * currentSpeed }

/-- The conversion offsets: `convertRadius` is 2 while the giant timer is
positive (a 3×3 block of offsets -1..1) and 1 otherwise (the centre cell
only); the source's `for (dr = -convertRadius + 1; dr < convertRadius; dr++)`
loop unrolled. -/
def convertOffsets (giant : Nat) : List Int :=
  if giant > 0 then [-1, 0, 1] else [0]

/-- Convert one cell of the grid copy if it is in range and owned by the other
team, flagging that a change happened. -/
def convertCell (team : Team) (r c : Int) (acc : Tiles × Bool) : Tiles × Bool :=
  if 0 ≤ r ∧ r < (ROWS : Int) ∧ 0 ≤ c ∧ c < (COLS : Int) then
    if ¬ (getTile acc.1 r.toNat c.toNat).team = team then
      (setTile acc.1 r.toNat c.toNat team, true)
    else acc
  else acc

/-- The tile-conversion double loop around the centre cell. -/
def convertTiles (team : Team) (giant : Nat) (row col : Int) (t : Tiles) (hc : Bool) :
    Tiles × Bool :=
  (convertOffsets giant).foldl (fun acc dr =>
    (convertOffsets giant).foldl (fun acc dc => convertCell team (row + dr) (col + dc) acc) acc)
    (t, hc)

/-- Mid-frame state of the ball-processing loop. -/
structure BState where
  arr : List Ball
  entries : List Entry
  tiles : Tiles
  hasChanges : Bool
  powerUps : List PowerUp
  ballIdCtr : Nat
  apps : List (Nat × Nat × PowerUpType)
  redirects : List Nat
deriving DecidableEq, Repr

/-- Effective speed multiplier, Euler step, boundary collision and the whole
power-up collision loop for the ball `b1` (timer and trail already updated)
held in slot `i`. -/
def pickupOf (env : Env) (st : BState) (i : Nat) (b1 : Ball) : PickupState :=
  let speedMult := (if b1.speed > 0 then (5/2 : ℚ) else 1) * env.speedMultiplier
  let b2 := boundary env.width env.height (moveBall speedMult b1)
  pickupLoop env i st.powerUps
    { b := b2, arr := st.arr, entries := st.entries, ballIdCtr := st.ballIdCtr,
      removed := [], apps := st.apps }

/-- The ball as it is written back to its slot at the end of its processing:
post-pickup state, plus the random redirect when the centre cell of the
frame-start snapshot is enemy-owned. -/
def finalBall (env : Env) (oldTiles : Tiles) (tileWidth tileHeight : ℚ)
    (st : BState) (i : Nat) (b1 : Ball) : Ball :=
  let b3 := (pickupOf env st i b1).b
  if redirectCond oldTiles tileWidth tileHeight b3 then
    applyRedirect (env.redirectDir i) b3
  else b3

/-- The non-frozen part of the ball body for the ball `b1` (timer and trail
already updated) held in slot `i`: effective speed, motion, boundary
collision, power-up pickups, registry filtering, tile conversion and the
post-conversion redirect. -/
def processMoving (env : Env) (oldTiles : Tiles) (tileWidth tileHeight : ℚ)
    (st : BState) (i : Nat) (b1 : Ball) : BState :=
  let ps := pickupOf env st i b1
  let remaining := st.powerUps.filter (fun p => decide (p.id ∉ ps.removed))
  let b3 := ps.b
  let col : Int := Int.floor (b3.x / tileWidth)
  let row : Int := Int.floor (b3.y / tileHeight)
  let conv := convertTiles b3.team b3.giant row col st.tiles st.hasChanges
  { arr := ps.arr.set i (finalBall env oldTiles tileWidth tileHeight st i b1),
    entries := ps.entries ++ [.ref i],
    tiles := conv.1,
    hasChanges := conv.2,
    powerUps := remaining,
    ballIdCtr := ps.ballIdCtr,
    apps := ps.apps,
    redirects := st.redirects ++
      (if redirectCond oldTiles tileWidth tileHeight b3 then [i] else []) }

/-- The body of the ball loop after the clone-expiry check: timer decay, trail
update, then either the frozen short-circuit (the ball is retained untouched
otherwise) or the full moving body. -/
def processActive (env : Env) (oldTiles : Tiles) (tileWidth tileHeight : ℚ)
    (st : BState) (i : Nat) (b0 : Ball) : BState :=
  let b1 := pushTrail (tickTimers b0)
  if b1.frozen > 0 then
    { st with arr := st.arr.set i b1, entries := st.entries ++ [.ref i] }
  else processMoving env oldTiles tileWidth tileHeight st i b1

/-- The clone-expiry decrement applied to a ball at the top of its processing
(identity on balls it does not apply to). -/
def cloneTick (b : Ball) : Ball :=
  if b.isClone = true ∧ b.cloneExpires > 0 then
    { b with cloneExpires := b.cloneExpires - 1 }
  else b

/-- One iteration of the ball loop: the clone-expiry check, then the active
body; an expiring clone is only written back (its countdown hit 0) and is not
pushed to `newBalls` and gets no further processing. -/
def processOneBall (env : Env) (oldTiles : Tiles) (tileWidth tileHeight : ℚ)
    (st : BState) (i : Nat) : BState :=
  match st.arr.get? i with
  | none => st
  | some ball =>
    if ball.isClone = true ∧ ball.cloneExpires > 0 then
      let b := { ball with cloneExpires := ball.cloneExpires - 1 }
      if b.cloneExpires = 0 then { st with arr := st.arr.set i b }
      else processActive env oldTiles tileWidth tileHeight st i b
    else processActive env oldTiles tileWidth tileHeight st i ball

/-- The `for (const ball of ballsRef.current)` loop, driven by slot indices. -/
def ballLoop (env : Env) (oldTiles : Tiles) (tileWidth tileHeight : ℚ) :
    List Nat → BState → BState
  | [], st => st
  | i :: rest, st =>
      ballLoop env oldTiles tileWidth tileHeight rest
        (processOneBall env oldTiles tileWidth tileHeight st i)

/-- Power-up spawning at the top of the frame: spawn exactly one iff the frame
counter is a multiple of the spawn interval and fewer than 3 are active. -/
def spawnStep (env : Env) (fc : Nat) (pus : List PowerUp) (ctr : Nat) :
    List PowerUp × Nat :=
  if fc % POWERUP_SPAWN_INTERVAL = 0 ∧ pus.length < 3 then
    (pus ++ [spawnPowerUp env.width env.height env.spawnU env.spawnV env.spawnType ctr env.now],
     ctr + 1)
  else (pus, ctr)

/-- Whole simulation state between frames. -/
structure GState where
  tiles : Tiles
  balls : List Ball
  powerUps : List PowerUp
  frameCount : Nat
  highL : Nat
  highR : Nat
  ballIdCtr : Nat
  puIdCtr : Nat
deriving Repr

/-- Observables of one frame used by the claims: the power-up applications
`(ball index, power-up id, type)`, the redirected ball indices, and the
tiles-changed flag. -/
structure FrameLog where
  apps : List (Nat × Nat × PowerUpType)
  redirects : List Nat
  hasChanges : Bool
deriving DecidableEq, Repr

/-- High-score update at the end of a frame: frozen until the frame counter
exceeds `HIGHSCORE_DELAY`, then raised to the current count when it is larger. -/
def updateHighScores (fc cl cr : Nat) (hs : Nat × Nat) : Nat × Nat :=
  if fc > HIGHSCORE_DELAY then
    (if cl > hs.1 then cl else hs.1, if cr > hs.2 then cr else hs.2)
  else hs

/-- Resolve a `newBalls` entry against the final state of the shared array. -/
def resolveEntry (arr : List Ball) : Entry → Ball
  | .ref i => arr.getD i defBall
  | .clone b => b

/-- The loop's initial mid-frame state: the grid copy `newTiles`, the empty
`newBalls`, and the (possibly just extended) power-up registry. -/
def initBState (g : GState) (pus : List PowerUp) : BState :=
  { arr := g.balls, entries := [], tiles := g.tiles, hasChanges := false,
    powerUps := pus, ballIdCtr := g.ballIdCtr, apps := [], redirects := [] }

/-- One whole frame of `gameLoop` (the simulation part, rendering excluded):
advance the frame counter, maybe spawn a power-up, process every ball,
resolve `newBalls`, publish the grid copy if it changed, recount tiles and
update high scores. -/
def processFrame (env : Env) (g : GState) : GState × FrameLog :=
  let fc := g.frameCount + 1
  let spawned := spawnStep env fc g.powerUps g.puIdCtr
  let tileWidth := env.width / (COLS : ℚ)
  let tileHeight := env.height / (ROWS : ℚ)
  let st := ballLoop env g.tiles tileWidth tileHeight (List.range g.balls.length)
    (initBState g spawned.1)
  let newBalls := st.entries.map (resolveEntry st.arr)
  let finalTiles := if st.hasChanges then st.tiles else g.tiles
  let cl := countLeft finalTiles
  let cr := countRight finalTiles
  let hs := updateHighScores fc cl cr (g.highL, g.highR)
  ({ tiles := finalTiles, balls := newBalls, powerUps := st.powerUps, frameCount := fc,
     highL := hs.1, highR := hs.2, ballIdCtr := st.ballIdCtr, puIdCtr := spawned.2 },
   { apps := st.apps, redirects := st.redirects, hasChanges := st.hasChanges })

/-- Iterated frames under an injected stream of per-frame environments. -/
def runFrames (envs : Nat → Env) (g : GState) : Nat → GState
  | 0 => g
  | n + 1 => (processFrame (envs n) (runFrames envs g n)).1

/-- All power-up applications over the first `n` frames of a run. -/
def runApps (envs : Nat → Env) (g : GState) : Nat → List (Nat × Nat × PowerUpType)
  | 0 => []
  | n + 1 => runApps envs g n ++ (processFrame (envs n) (runFrames envs g n)).2.apps

/-- The high-score pair after frame `n`, given the per-frame tile counts; frame
numbers start at 1 and the initial value is the even split. -/
def highSeq (counts : Nat → Nat × Nat) : Nat → Nat × Nat
  | 0 => (COLS * ROWS / 2, COLS * ROWS / 2)
  | n + 1 => updateHighScores (n + 1) (counts (n + 1)).1 (counts (n + 1)).2 (highSeq counts n)

/-! Concrete inputs used by counterexamples and witnesses. -/

/-- A 20×12 world (tile pitch 1×1), slider at 1, no useful random draws. -/
def envT : Env :=
  { width := 20, height := 12, speedMultiplier := 1, spawnU := 0, spawnV := 0,
    spawnType := .speed, now := 0, redirectDir := fun _ => (0, 1) }

/-- A left-team ball at (5,3) in an 8×6 world, for the magnet pickup. -/
def ballC1 : Ball :=
  { id := 0, x := 5, y := 3, vx := 1, vy := 1, team := .left, radius := 2/5,
    baseRadius := 2/5, trail := [], frozen := 0, giant := 0, speed := 0,
    isClone := false, cloneExpires := 0 }

/-- A stationary left-team ball over cell (row 0, col 10), which starts
right-owned. -/
def ballC2a : Ball :=
  { id := 0, x := 21/2, y := 1/2, vx := 0, vy := 0, team := .left, radius := 2/5,
    baseRadius := 2/5, trail := [], frozen := 0, giant := 0, speed := 0,
    isClone := false, cloneExpires := 0 }

/-- A left-team clone at the same spot, processed right after `ballC2a`. -/
def ballC2b : Ball :=
  { ballC2a with id := 1, isClone := true, cloneExpires := 100 }

/-- Two same-team balls over the same enemy cell, nothing else going on. -/
def gC2 : GState :=
  { tiles := createInitialTiles, balls := [ballC2a, ballC2b], powerUps := [],
    frameCount := 0, highL := 120, highR := 120, ballIdCtr := 2, puIdCtr := 0 }

/-- A stationary left-team ball sitting on its own cell (row 6, col 5), right
on top of a freeze power-up. -/
def bPC3 : Ball :=
  { id := 0, x := 11/2, y := 13/2, vx := 0, vy := 0, team := .left, radius := 2/5,
    baseRadius := 2/5, trail := [], frozen := 0, giant := 0, speed := 0,
    isClone := false, cloneExpires := 0 }

/-- The freeze power-up under `bPC3`. -/
def puC3 : PowerUp := { id := 0, x := 11/2, y := 13/2, type := .freeze, spawnTime := 0 }

/-- The freeze scenario with an arbitrary ball in slot 1, after the picker. -/
def gC3e (e : Ball) : GState :=
  { tiles := createInitialTiles, balls := [bPC3, e], powerUps := [puC3],
    frameCount := 0, highL := 120, highR := 120, ballIdCtr := 2, puIdCtr := 1 }

/-- A stationary right-team ball on its own cell (row 6, col 14). -/
def eC3 : Ball :=
  { id := 1, x := 29/2, y := 13/2, vx := 0, vy := 0, team := .right, radius := 2/5,
    baseRadius := 2/5, trail := [], frozen := 0, giant := 0, speed := 0,
    isClone := false, cloneExpires := 0 }

/-- The freeze counterexample state: left picker in slot 0, right enemy in
slot 1. -/
def gC3 : GState := gC3e eC3

/-- A ball that crosses the low-x and high-y world edges this frame. -/
def ballC5 : Ball :=
  { id := 0, x := 1/5, y := 59/5, vx := -1, vy := 1, team := .left, radius := 2/5,
    baseRadius := 2/5, trail := [], frozen := 0, giant := 0, speed := 0,
    isClone := false, cloneExpires := 0 }

/-- Mid-frame state holding just `ballC5`. -/
def stC5 : BState :=
  { arr := [ballC5], entries := [], tiles := createInitialTiles, hasChanges := false,
    powerUps := [], ballIdCtr := 1, apps := [], redirects := [] }

/-- A state with no balls, for pure tile-invariant instantiation. -/
def gC6 : GState :=
  { tiles := createInitialTiles, balls := [], powerUps := [], frameCount := 0,
    highL := 120, highR := 120, ballIdCtr := 0, puIdCtr := 0 }

/-- A moving left-team ball that lands exactly on the split power-up. -/
def bC7 : Ball :=
  { id := 0, x := 11/2, y := 13/2, vx := 3, vy := 4, team := .left, radius := 2/5,
    baseRadius := 2/5, trail := [], frozen := 0, giant := 0, speed := 0,
    isClone := false, cloneExpires := 0 }

/-- The split power-up at `bC7`'s post-move position (17/2, 21/2). -/
def puC7 : PowerUp := { id := 5, x := 17/2, y := 21/2, type := .split, spawnTime := 0 }

/-- One ball about to pick up one split power-up. -/
def gC7 : GState :=
  { tiles := createInitialTiles, balls := [bC7], powerUps := [puC7],
    frameCount := 0, highL := 120, highR := 120, ballIdCtr := 1, puIdCtr := 6 }

/-- A pickup-loop state for `bC7` (post-move) facing `puC7`. -/
def psC7 : PickupState :=
  { b := { bC7 with x := 17/2, y := 21/2, trail := [(11/2, 13/2)] }, arr := [bC7],
    entries := [], ballIdCtr := 1, removed := [], apps := [] }

/-- A fresh clone with the full 360-frame countdown. -/
def cloneC8 : Ball :=
  { id := 3, x := 11/2, y := 13/2, vx := 1, vy := 0, team := .left, radius := 7/25,
    baseRadius := 7/25, trail := [], frozen := 0, giant := 0, speed := 0,
    isClone := true, cloneExpires := 360 }

/-- A world containing only `cloneC8`. -/
def gC8 : GState :=
  { tiles := createInitialTiles, balls := [cloneC8], powerUps := [], frameCount := 0,
    highL := 120, highR := 120, ballIdCtr := 4, puIdCtr := 0 }

/-- A giant power-up on top of the stationary picker `bPC3`, with a second
power-up elsewhere, for the consumption invariant. -/
def puC10 : PowerUp := { id := 7, x := 11/2, y := 13/2, type := .giant, spawnTime := 0 }

/-- A far-away power-up nobody reaches. -/
def puC10b : PowerUp := { id := 8, x := 35/2, y := 3/2, type := .freeze, spawnTime := 0 }

/-- Two balls, two distinct power-ups, one of which gets consumed. -/
def gC10 : GState :=
  { tiles := createInitialTiles, balls := [bPC3, eC3], powerUps := [puC10, puC10b],
    frameCount := 0, highL := 120, highR := 120, ballIdCtr := 2, puIdCtr := 9 }

/-- What a split pickup does, per claim C7: it consumes the power-up, appends
exactly one clone entry (position of the parent, velocity the parent's rotated
90° so the dot product vanishes, radii 0.7× the parent's baseRadius, the
parent's team, a 360-frame countdown), bumps the id counter, and leaves the
parent ball and the shared array untouched. -/
def SplitPickupSpec (env : Env) (i : Nat) (p : PowerUp) (s : PickupState) : Prop :=
  applyPowerUp env i s p =
    { s with entries := s.entries ++ [Entry.clone (makeClone s.ballIdCtr s.b)],
             ballIdCtr := s.ballIdCtr + 1,
             removed := s.removed ++ [p.id],
             apps := s.apps ++ [(i, p.id, PowerUpType.split)] } ∧
  (makeClone s.ballIdCtr s.b).x = s.b.x ∧
  (makeClone s.ballIdCtr s.b).y = s.b.y ∧
  (makeClone s.ballIdCtr s.b).vx * s.b.vx + (makeClone s.ballIdCtr s.b).vy * s.b.vy = 0 ∧
  (makeClone s.ballIdCtr s.b).radius = s.b.baseRadius * (7/10) ∧
  (makeClone s.ballIdCtr s.b).baseRadius = s.b.baseRadius * (7/10) ∧
  (makeClone s.ballIdCtr s.b).cloneExpires = 360 ∧
  (makeClone s.ballIdCtr s.b).team = s.b.team ∧
  (makeClone s.ballIdCtr s.b).isClone = true ∧
  (applyPowerUp env i s p).b = s.b ∧
  (applyPowerUp env i s p).arr = s.arr ∧
  (pickupLoop env i [p] s).entries.length = s.entries.length + 1

/-- What the post-conversion redirect actually keys on (claim C2, amended):
the ball index is logged as redirected exactly when the written-back ball's
centre cell is in range and the FRAME-START snapshot has it enemy-owned,
regardless of in-frame conversions by other agents. -/
def RedirectIffSpec (env : Env) (oldTiles : Tiles) (tW tH : ℚ) (st : BState) (i : Nat) : Prop :=
  ∃ b', (processOneBall env oldTiles tW tH st i).arr.get? i = some b' ∧
    (processOneBall env oldTiles tW tH st i).redirects =
      st.redirects ++ (if redirectCond oldTiles tW tH b' then [i] else [])

/-- Mid-frame state holding just `ballC2a`. -/
def stC2w : BState :=
  { arr := [ballC2a], entries := [], tiles := createInitialTiles, hasChanges := false,
    powerUps := [], ballIdCtr := 1, apps := [], redirects := [] }

/-- What a freeze pickup does (claim C3, amended): it consumes the power-up
and sets `frozen` to 180 on every opposing ball in the shared array at that
moment, leaving the picker, teammates, entries and everything else alone. -/
def FreezePickupSpec (env : Env) (i : Nat) (p : PowerUp) (s : PickupState) : Prop :=
  applyPowerUp env i s p =
    { s with arr := applyFreeze s.b.team s.arr,
             removed := s.removed ++ [p.id],
             apps := s.apps ++ [(i, p.id, PowerUpType.freeze)] } ∧
  ∀ (j : Nat) (o : Ball), s.arr.get? j = some o →
    (applyFreeze s.b.team s.arr).get? j =
      some (if o.team ≠ s.b.team then { o with frozen := POWERUP_DURATION } else o)

/-- What processing a frozen ball does (claim C3, amended), clone or not:
the clone countdown, timers and trail are updated and the ball is written
back and retained, with no motion, pickups, conversion or redirect — its
position is unchanged and its frozen counter went down by one. -/
def FrozenSkipSpec (env : Env) (oldTiles : Tiles) (tW tH : ℚ) (st : BState)
    (i : Nat) (b : Ball) : Prop :=
  processOneBall env oldTiles tW tH st i =
    { st with arr := st.arr.set i (pushTrail (tickTimers (cloneTick b))),
              entries := st.entries ++ [Entry.ref i] } ∧
  (pushTrail (tickTimers (cloneTick b))).x = b.x ∧
  (pushTrail (tickTimers (cloneTick b))).y = b.y ∧
  (pushTrail (tickTimers (cloneTick b))).frozen = b.frozen - 1

/-- The run-level freeze property (claim C3, amended): a frozen agent stays
put until its counter runs out.  For any number `k` of elapsed frames with
`k ≤ frozen - 1` (and, for a clone, small enough that the clone countdown
has not removed it), the agent is still live, at its original position, with
its frozen counter reduced by exactly `k`. -/
def FrozenRunSpec (envs : Nat → Env) (g0 : GState) (b : Ball) : Prop :=
  ∀ k, k + 1 ≤ b.frozen → (b.isClone = true → k + 1 ≤ b.cloneExpires) →
  ∃ b', (runFrames envs g0 k).balls = [b'] ∧ b'.x = b.x ∧ b'.y = b.y ∧
    b'.frozen = b.frozen - k

/-- Pickup-loop state for `bPC3` sitting on the freeze power-up with the
enemy `eC3` in the shared array. -/
def psC3 : PickupState :=
  { b := bPC3, arr := [bPC3, eC3], entries := [], ballIdCtr := 2, removed := [], apps := [] }

/-- The enemy ball just after the picker froze it mid-frame. -/
def eC3frozen : Ball := { eC3 with frozen := 180 }

/-- Mid-frame state holding just the freshly frozen enemy. -/
def stC3w : BState :=
  { arr := [eC3frozen], entries := [], tiles := createInitialTiles, hasChanges := false,
    powerUps := [], ballIdCtr := 2, apps := [], redirects := [] }

/-- A world containing only the freshly frozen enemy, for the run-level
freeze property. -/
def gFz : GState :=
  { tiles := createInitialTiles, balls := [eC3frozen], powerUps := [], frameCount := 0,
    highL := 120, highR := 120, ballIdCtr := 2, puIdCtr := 1 }

/-- Per-step facts about a live clone (claim C8): it is retained in
`newBalls` and comes out of its slot with the countdown decremented and the
clone flag intact. -/
def CloneStepSpec (env : Env) (oldTiles : Tiles) (tW tH : ℚ) (st : BState)
    (i : Nat) (b : Ball) : Prop :=
  Entry.ref i ∈ (processOneBall env oldTiles tW tH st i).entries ∧
  ∃ b', (processOneBall env oldTiles tW tH st i).arr.get? i = some b' ∧
    b'.isClone = true ∧ b'.cloneExpires = b.cloneExpires - 1

/-- The expiry step of a clone whose countdown hits 0 this frame (claim C8):
the state is untouched except for writing the decremented ball back into its
slot — in particular it is not pushed to `newBalls` and gets no further
processing. -/
def CloneExpireSpec (env : Env) (oldTiles : Tiles) (tW tH : ℚ) (st : BState)
    (i : Nat) (b : Ball) : Prop :=
  processOneBall env oldTiles tW tH st i = { st with arr := st.arr.set i (cloneTick b) } ∧
  (cloneTick b).cloneExpires = 0

/-- Exact clone lifetime (claim C8): alive with the expected countdown for
the 360 frames after creation, removed on frame 360. -/
def CloneRunSpec (envs : Nat → Env) (g0 : GState) : Prop :=
  (∀ k, k ≤ 359 → ∃ b', (runFrames envs g0 k).balls = [b'] ∧ b'.isClone = true ∧
    b'.cloneExpires = 360 - k)
  ∧ (runFrames envs g0 360).balls = []

/-- Mid-frame state holding just `cloneC8`. -/
def stC8 : BState :=
  { arr := [cloneC8], entries := [], tiles := createInitialTiles, hasChanges := false,
    powerUps := [], ballIdCtr := 4, apps := [], redirects := [] }

/-- The clone one frame before removal. -/
def cloneC8e : Ball := { cloneC8 with cloneExpires := 1 }

/-- Mid-frame state holding just `cloneC8e`. -/
def stC8e : BState :=
  { arr := [cloneC8e], entries := [], tiles := createInitialTiles, hasChanges := false,
    powerUps := [], ballIdCtr := 4, apps := [], redirects := [] }

/-- The power-up ids of an application log. -/
def appIds (l : List (Nat × Nat × PowerUpType)) : List Nat := l.map (fun a => a.2.1)

/-- The ids of a power-up registry. -/
def puIds (l : List PowerUp) : List Nat := l.map (fun p => p.id)

/-- Loop invariant for claim C10, relative to the frame's starting registry
`P0`: the application log has no repeated power-up id, every logged id is
absent from the current registry (it was removed before any later ball runs
its pickup check) and came from `P0`, and the registry only ever shrinks. -/
def PickupInv (P0 : List PowerUp) (st : BState) : Prop :=
  (appIds st.apps).Nodup ∧
  st.powerUps.Sublist P0 ∧
  (∀ n ∈ appIds st.apps, n ∉ puIds st.powerUps) ∧
  (∀ n ∈ appIds st.apps, n ∈ puIds P0)

/-- Between-frames invariant: registry ids are distinct and below the id
counter. -/
def GInv (g : GState) : Prop :=
  (puIds g.powerUps).Nodup ∧ ∀ p ∈ g.powerUps, p.id < g.puIdCtr

instance (g : GState) : Decidable (GInv g) :=
  inferInstanceAs (Decidable (_ ∧ _))

/-! Projection facts for the per-ball pipeline stages. -/

theorem tickTimers_x (b : Ball) : (tickTimers b).x = b.x := by
  simp only [tickTimers]; split_ifs <;> rfl

theorem tickTimers_y (b : Ball) : (tickTimers b).y = b.y := by
  simp only [tickTimers]; split_ifs <;> rfl

theorem tickTimers_vx (b : Ball) : (tickTimers b).vx = b.vx := by
  simp only [tickTimers]; split_ifs <;> rfl

theorem tickTimers_vy (b : Ball) : (tickTimers b).vy = b.vy := by
  simp only [tickTimers]; split_ifs <;> rfl

theorem tickTimers_team (b : Ball) : (tickTimers b).team = b.team := by
  simp only [tickTimers]; split_ifs <;> rfl

theorem tickTimers_isClone (b : Ball) : (tickTimers b).isClone = b.isClone := by
  simp only [tickTimers]; split_ifs <;> rfl

theorem tickTimers_cloneExpires (b : Ball) : (tickTimers b).cloneExpires = b.cloneExpires := by
  simp only [tickTimers]; split_ifs <;> rfl

theorem tickTimers_baseRadius (b : Ball) : (tickTimers b).baseRadius = b.baseRadius := by
  simp only [tickTimers]; split_ifs <;> rfl

theorem tickTimers_trail (b : Ball) : (tickTimers b).trail = b.trail := by
  simp only [tickTimers]; split_ifs <;> rfl

theorem tickTimers_frozen (b : Ball) : (tickTimers b).frozen = b.frozen - 1 := by
  simp only [tickTimers]
  split_ifs <;> first | rfl | (show b.frozen = b.frozen - 1; omega)

theorem pushTrail_x (b : Ball) : (pushTrail b).x = b.x := rfl

theorem pushTrail_y (b : Ball) : (pushTrail b).y = b.y := rfl

theorem pushTrail_vx (b : Ball) : (pushTrail b).vx = b.vx := rfl

theorem pushTrail_vy (b : Ball) : (pushTrail b).vy = b.vy := rfl

theorem pushTrail_team (b : Ball) : (pushTrail b).team = b.team := rfl

theorem pushTrail_isClone (b : Ball) : (pushTrail b).isClone = b.isClone := rfl

theorem pushTrail_cloneExpires (b : Ball) : (pushTrail b).cloneExpires = b.cloneExpires := rfl

theorem pushTrail_radius (b : Ball) : (pushTrail b).radius = b.radius := rfl

theorem pushTrail_frozen (b : Ball) : (pushTrail b).frozen = b.frozen := rfl

theorem pushTrail_giant (b : Ball) : (pushTrail b).giant = b.giant := rfl

theorem pushTrail_speed (b : Ball) : (pushTrail b).speed = b.speed := rfl

theorem moveBall_radius (m : ℚ) (b : Ball) : (moveBall m b).radius = b.radius := rfl

theorem moveBall_team (m : ℚ) (b : Ball) : (moveBall m b).team = b.team := rfl

theorem moveBall_isClone (m : ℚ) (b : Ball) : (moveBall m b).isClone = b.isClone := rfl

theorem moveBall_cloneExpires (m : ℚ) (b : Ball) : (moveBall m b).cloneExpires = b.cloneExpires := rfl

theorem boundary_team (w h : ℚ) (b : Ball) : (boundary w h b).team = b.team := rfl

theorem boundary_radius (w h : ℚ) (b : Ball) : (boundary w h b).radius = b.radius := rfl

theorem boundary_isClone (w h : ℚ) (b : Ball) : (boundary w h b).isClone = b.isClone := rfl

theorem boundary_cloneExpires (w h : ℚ) (b : Ball) :
    (boundary w h b).cloneExpires = b.cloneExpires := rfl

theorem applyRedirect_x (d : ℚ × ℚ) (b : Ball) : (applyRedirect d b).x = b.x := rfl

theorem applyRedirect_y (d : ℚ × ℚ) (b : Ball) : (applyRedirect d b).y = b.y := rfl

theorem applyRedirect_team (d : ℚ × ℚ) (b : Ball) : (applyRedirect d b).team = b.team := rfl

theorem applyRedirect_isClone (d : ℚ × ℚ) (b : Ball) :
    (applyRedirect d b).isClone = b.isClone := rfl

theorem applyRedirect_cloneExpires (d : ℚ × ℚ) (b : Ball) :
    (applyRedirect d b).cloneExpires = b.cloneExpires := rfl

theorem cloneTick_x (b : Ball) : (cloneTick b).x = b.x := by
  simp only [cloneTick]; split_ifs <;> rfl

theorem cloneTick_y (b : Ball) : (cloneTick b).y = b.y := by
  simp only [cloneTick]; split_ifs <;> rfl

theorem cloneTick_frozen (b : Ball) : (cloneTick b).frozen = b.frozen := by
  simp only [cloneTick]; split_ifs <;> rfl

theorem cloneTick_radii (b : Ball) :
    (cloneTick b).radius = b.radius ∧ (cloneTick b).baseRadius = b.baseRadius ∧
    (cloneTick b).giant = b.giant ∧ (cloneTick b).speed = b.speed ∧
    (cloneTick b).team = b.team ∧ (cloneTick b).vx = b.vx ∧ (cloneTick b).vy = b.vy ∧
    (cloneTick b).trail = b.trail := by
  simp only [cloneTick]; split_ifs <;> exact ⟨rfl, rfl, rfl, rfl, rfl, rfl, rfl, rfl⟩

theorem tickTimers_cloneTick_radius (b : Ball) :
    (tickTimers (cloneTick b)).radius = (tickTimers b).radius := by
  simp only [cloneTick]; split_ifs with h
  · simp only [tickTimers]; split_ifs <;> rfl
  · rfl

/-! Preservation facts for the pickup loop. -/

theorem applyPowerUp_pres (env : Env) (i : Nat) (s : PickupState) (p : PowerUp) :
    (applyPowerUp env i s p).b.x = s.b.x ∧ (applyPowerUp env i s p).b.y = s.b.y ∧
    (applyPowerUp env i s p).b.team = s.b.team ∧
    (applyPowerUp env i s p).b.isClone = s.b.isClone ∧
    (applyPowerUp env i s p).b.cloneExpires = s.b.cloneExpires ∧
    (applyPowerUp env i s p).arr.length = s.arr.length := by
  rcases p with ⟨pid, px, py, ty, pst⟩
  cases ty <;>
    simp only [applyPowerUp, magnetUpdate, applyFreeze] <;>
    split_ifs <;>
    refine ⟨rfl, rfl, rfl, rfl, rfl, ?_⟩ <;>
    first | rfl | simp

theorem pickupLoop_pres (env : Env) (i : Nat) (pus : List PowerUp) (s : PickupState) :
    (pickupLoop env i pus s).b.x = s.b.x ∧ (pickupLoop env i pus s).b.y = s.b.y ∧
    (pickupLoop env i pus s).b.team = s.b.team ∧
    (pickupLoop env i pus s).b.isClone = s.b.isClone ∧
    (pickupLoop env i pus s).b.cloneExpires = s.b.cloneExpires ∧
    (pickupLoop env i pus s).arr.length = s.arr.length := by
  induction pus generalizing s with
  | nil => exact ⟨rfl, rfl, rfl, rfl, rfl, rfl⟩
  | cons p rest ih =>
    have h := applyPowerUp_pres env i s p
    have h' := ih (applyPowerUp env i s p)
    exact ⟨h'.1.trans h.1, h'.2.1.trans h.2.1, h'.2.2.1.trans h.2.2.1,
      h'.2.2.2.1.trans h.2.2.2.1, h'.2.2.2.2.1.trans h.2.2.2.2.1,
      h'.2.2.2.2.2.trans h.2.2.2.2.2⟩

/-! The boundary reflection invariant. -/

theorem boundary_box (w h : ℚ) (b : Ball) (hw : 2 * b.radius ≤ w) (hh : 2 * b.radius ≤ h) :
    (b.radius ≤ (boundary w h b).x ∧ (boundary w h b).x ≤ w - b.radius ∧
      b.radius ≤ (boundary w h b).y ∧ (boundary w h b).y ≤ h - b.radius) ∧
    (b.x - b.radius < 0 → (boundary w h b).vx = |b.vx|) ∧
    (0 ≤ b.x - b.radius → w < b.x + b.radius → (boundary w h b).vx = -|b.vx|) ∧
    (b.y - b.radius < 0 → (boundary w h b).vy = |b.vy|) ∧
    (0 ≤ b.y - b.radius → h < b.y + b.radius → (boundary w h b).vy = -|b.vy|) := by
  simp only [boundary]
  split_ifs with h1 h2 h3 h4
  all_goals refine ⟨⟨?_, ?_, ?_, ?_⟩, fun hx => ?_, fun hx hy => ?_, fun hx => ?_, fun hx hy => ?_⟩
  all_goals try dsimp only
  all_goals first | rfl | linarith

/-- The team tag is never the string "white", so the magnet target is always
25% of the width. -/
theorem magnetTargetX_eq (t : Team) (w : ℚ) : magnetTargetX t w = w * (1/4) := by
  cases t <;> simp only [magnetTargetX, Team.str] <;> rw [if_neg (by decide)]

/-- Evaluation of the square root at the perfect square 9. -/
theorem rsqrt_nine : rsqrt 9 = 3 := by
  rw [rsqrt, if_neg (by norm_num), (show ((9:ℚ)).num.toNat = 9 from rfl),
    (show ((9:ℚ)).den = 1 from rfl), (show nsq 9 = 3 by decide), (show nsq 1 = 1 by decide)]
  norm_num

/-- C1: the claim says the magnet pickup aims the picker at 75% of the width
for one team and 25% for the other. In the source, `ball.team === "white"`
compares the team tag (always "left" or "right") against a value it never
takes, so the target is 25% of the width for BOTH teams; its own comment
says "Push ball towards enemy territory", yet a left-team picker is aimed at
its own half. Here a left-team ball at (5,3) in an 8×6 world (claimed target
x = 6, to its right) is sent LEFT towards x = 2: its new velocity is
(-6, 0) = (-1, 0)·1.5·BASE_SPEED, not the claimed direction. The scaling
factors (1.5 and 0.5 of BASE_SPEED along the unit direction) do match. -/
theorem C1_magnet_target_bug :
    (∀ (t : Team) (w : ℚ), magnetTargetX t w = w * (1/4))
    ∧ ballC1.team = Team.left
    ∧ ballC1.x < 8 * (3/4)
    ∧ magnetTargetX ballC1.team 8 = 2
    ∧ (magnetUpdate 8 6 ballC1).vx = -6
    ∧ (magnetUpdate 8 6 ballC1).vy = 0
    ∧ (magnetUpdate 8 6 ballC1).vx < 0 := by
  refine ⟨magnetTargetX_eq, rfl, by norm_num [ballC1], ?_, ?_, ?_, ?_⟩
  all_goals
    norm_num [magnetUpdate, magnetTargetX_eq, ballC1, rsqrt_nine, BASE_SPEED]

/-- The high-score update never decreases either component. -/
theorem updateHighScores_ge (fc cl cr : Nat) (hs : Nat × Nat) :
    hs.1 ≤ (updateHighScores fc cl cr hs).1 ∧ hs.2 ≤ (updateHighScores fc cl cr hs).2 := by
  simp only [updateHighScores]
  split_ifs <;> constructor <;> simp <;> omega

/-- C4: for every frame with index ≤ 600 each team's high score equals the
initial even split ROWS×COLS/2 = 120; the per-frame update is
max(currentHigh, currentCount) once the index exceeds 600, hence the
sequence is monotonically non-decreasing; and `processFrame` computes its
high scores by exactly this update applied to the end-of-frame counts. -/
theorem C4_highscores (counts : Nat → Nat × Nat) :
    (∀ n, n ≤ HIGHSCORE_DELAY → highSeq counts n = (120, 120))
    ∧ (∀ (n : Nat) (c hs : Nat × Nat), HIGHSCORE_DELAY < n →
        updateHighScores n c.1 c.2 hs = (max hs.1 c.1, max hs.2 c.2))
    ∧ (∀ n, (highSeq counts n).1 ≤ (highSeq counts (n + 1)).1 ∧
        (highSeq counts n).2 ≤ (highSeq counts (n + 1)).2)
    ∧ (∀ (env : Env) (g : GState),
        (processFrame env g).1.highL =
          (updateHighScores (g.frameCount + 1) (countLeft (processFrame env g).1.tiles)
            (countRight (processFrame env g).1.tiles) (g.highL, g.highR)).1 ∧
        (processFrame env g).1.highR =
          (updateHighScores (g.frameCount + 1) (countLeft (processFrame env g).1.tiles)
            (countRight (processFrame env g).1.tiles) (g.highL, g.highR)).2) := by
  refine ⟨?_, ?_, ?_, ?_⟩
  · intro n hn
    induction n with
    | zero => simp [highSeq, COLS, ROWS]
    | succ k ih =>
      rw [highSeq, ih (by omega), updateHighScores, if_neg (by omega)]
  · intro n c hs hn
    rw [updateHighScores, if_pos hn]
    refine Prod.ext ?_ ?_ <;> simp only [Nat.max_def] <;> split_ifs <;> omega
  · intro n
    rw [highSeq]
    exact updateHighScores_ge _ _ _ _
  · intro env g
    exact ⟨rfl, rfl⟩

/-- Witness for C4 at a concrete counts stream: frozen at the split through
frame 600, and a max-update at frame 601. -/
theorem C4_highscores_witness :
    ((5 : Nat) ≤ HIGHSCORE_DELAY ∧ highSeq (fun _ => (130, 110)) 5 = (120, 120))
    ∧ (HIGHSCORE_DELAY < 601 ∧
        updateHighScores 601 130 110 (120, 120) = (max 120 130, max 120 110)) :=
  ⟨⟨by norm_num [HIGHSCORE_DELAY],
    (C4_highscores (fun _ => (130, 110))).1 5 (by norm_num [HIGHSCORE_DELAY])⟩,
   ⟨by norm_num [HIGHSCORE_DELAY],
    (C4_highscores (fun _ => (130, 110))).2.1 601 (130, 110) (120, 120)
      (by norm_num [HIGHSCORE_DELAY])⟩⟩

/-- Ball processing never adds to the power-up registry. -/
theorem processOneBall_powerUps_le (env : Env) (oldTiles : Tiles) (tW tH : ℚ)
    (st : BState) (i : Nat) :
    (processOneBall env oldTiles tW tH st i).powerUps.length ≤ st.powerUps.length := by
  rw [processOneBall]
  rcases h : st.arr.get? i with _ | b
  · exact Nat.le_refl _
  · dsimp only
    split_ifs
    · exact Nat.le_refl _
    · rw [processActive]; split_ifs
      · exact Nat.le_refl _
      · exact List.length_filter_le _ _
    · rw [processActive]; split_ifs
      · exact Nat.le_refl _
      · exact List.length_filter_le _ _

/-- The whole ball loop never adds to the power-up registry. -/
theorem ballLoop_powerUps_le (env : Env) (oldTiles : Tiles) (tW tH : ℚ)
    (idxs : List Nat) (st : BState) :
    (ballLoop env oldTiles tW tH idxs st).powerUps.length ≤ st.powerUps.length := by
  induction idxs generalizing st with
  | nil => exact Nat.le_refl _
  | cons i rest ih =>
    rw [ballLoop]
    exact (ih _).trans (processOneBall_powerUps_le env oldTiles tW tH st i)

/-- C9: a power-up is spawned iff the frame index is a multiple of 300 and
fewer than 3 are active; at most one spawns per frame; a spawn with draws in
[0,1) lands inside the 30px inset box; and a frame never leaves more than 3
power-ups active. -/
theorem C9_powerup_spawn (env : Env) (fc : Nat) (pus : List PowerUp) (ctr : Nat) :
    (fc % POWERUP_SPAWN_INTERVAL = 0 ∧ pus.length < 3 →
      (spawnStep env fc pus ctr).1 =
        pus ++ [spawnPowerUp env.width env.height env.spawnU env.spawnV env.spawnType ctr env.now] ∧
      (spawnStep env fc pus ctr).2 = ctr + 1)
    ∧ (¬ (fc % POWERUP_SPAWN_INTERVAL = 0 ∧ pus.length < 3) →
        (spawnStep env fc pus ctr).1 = pus ∧ (spawnStep env fc pus ctr).2 = ctr)
    ∧ (spawnStep env fc pus ctr).1.length ≤ pus.length + 1
    ∧ (∀ (w h u v : ℚ) (ty : PowerUpType) (c n : Nat),
        0 ≤ u → u < 1 → 0 ≤ v → v < 1 → 60 ≤ w → 60 ≤ h →
        30 ≤ (spawnPowerUp w h u v ty c n).x ∧ (spawnPowerUp w h u v ty c n).x ≤ w - 30 ∧
        30 ≤ (spawnPowerUp w h u v ty c n).y ∧ (spawnPowerUp w h u v ty c n).y ≤ h - 30)
    ∧ (∀ (env2 : Env) (g : GState), g.powerUps.length ≤ 3 →
        (processFrame env2 g).1.powerUps.length ≤ 3) := by
  refine ⟨?_, ?_, ?_, ?_, ?_⟩
  · intro hcond
    rw [spawnStep, if_pos hcond]
    exact ⟨rfl, rfl⟩
  · intro hcond
    rw [spawnStep, if_neg hcond]
    exact ⟨rfl, rfl⟩
  · rw [spawnStep]
    split_ifs
    · simp
    · simp
  · intro w h u v ty c n hu0 hu1 hv0 hv1 hw hh
    refine ⟨?_, ?_, ?_, ?_⟩ <;> simp only [spawnPowerUp] <;> nlinarith
  · intro env2 g hg
    have hle := ballLoop_powerUps_le env2 g.tiles (env2.width / (COLS : ℚ))
      (env2.height / (ROWS : ℚ)) (List.range g.balls.length)
      (initBState g (spawnStep env2 (g.frameCount + 1) g.powerUps g.puIdCtr).1)
    have hsp : (spawnStep env2 (g.frameCount + 1) g.powerUps g.puIdCtr).1.length ≤ 3 := by
      rw [spawnStep]
      split_ifs with hc
      · simp only [List.length_append, List.length_cons, List.length_nil]
        omega
      · exact hg
    simpa only [processFrame, initBState] using hle.trans hsp

/-- Witness for C9: a spawn actually fires at frame 300 with an empty
registry, the spawned position bound holds at concrete draws, and a concrete
frame keeps the registry at ≤ 3. -/
theorem C9_powerup_spawn_witness :
    ((300 % POWERUP_SPAWN_INTERVAL = 0 ∧ ([] : List PowerUp).length < 3) ∧
      (spawnStep envT 300 [] 0).1 =
        [] ++ [spawnPowerUp envT.width envT.height envT.spawnU envT.spawnV envT.spawnType 0 envT.now] ∧
      (spawnStep envT 300 [] 0).2 = 0 + 1)
    ∧ ((0:ℚ) ≤ 0 ∧ (0:ℚ) < 1 ∧ (60:ℚ) ≤ 60 ∧
        (30 ≤ (spawnPowerUp 60 60 0 0 .speed 0 0).x ∧
          (spawnPowerUp 60 60 0 0 .speed 0 0).x ≤ 60 - 30 ∧
          30 ≤ (spawnPowerUp 60 60 0 0 .speed 0 0).y ∧
          (spawnPowerUp 60 60 0 0 .speed 0 0).y ≤ 60 - 30))
    ∧ (gC6.powerUps.length ≤ 3 ∧ (processFrame envT gC6).1.powerUps.length ≤ 3) :=
  ⟨⟨⟨by decide, by decide⟩,
    (C9_powerup_spawn envT 300 [] 0).1 ⟨by decide, by decide⟩⟩,
   ⟨le_refl 0, by norm_num, le_refl 60,
    (C9_powerup_spawn envT 300 [] 0).2.2.2.1 60 60 0 0 .speed 0 0
      (le_refl 0) (by norm_num) (le_refl 0) (by norm_num) (le_refl 60) (le_refl 60)⟩,
   ⟨by decide,
    (C9_powerup_spawn envT 300 [] 0).2.2.2.2 envT gC6 (by decide)⟩⟩

/-- One ball's processing, normalised: an expiring clone is only written back;
otherwise the (possibly decremented) ball goes through the active body. -/
theorem processOneBall_eq (env : Env) (oldTiles : Tiles) (tW tH : ℚ) (st : BState)
    (i : Nat) (b : Ball) (hb : st.arr.get? i = some b) :
    processOneBall env oldTiles tW tH st i =
      if b.isClone = true ∧ b.cloneExpires = 1 then
        { st with arr := st.arr.set i (cloneTick b) }
      else processActive env oldTiles tW tH st i (cloneTick b) := by
  rw [processOneBall, hb]
  dsimp only
  by_cases h1 : b.isClone = true ∧ b.cloneExpires > 0
  · rw [if_pos h1, cloneTick, if_pos h1]
    by_cases h2 : b.cloneExpires - 1 = 0
    · rw [if_pos h2, if_pos ⟨h1.1, by omega⟩]
    · rw [if_neg h2, if_neg (by omega)]
  · rw [if_neg h1, cloneTick, if_neg h1, if_neg (fun hc => h1 ⟨hc.1, by omega⟩)]

theorem processMoving_arr (env : Env) (oldTiles : Tiles) (tW tH : ℚ) (st : BState)
    (i : Nat) (b1 : Ball) :
    (processMoving env oldTiles tW tH st i b1).arr =
      (pickupOf env st i b1).arr.set i (finalBall env oldTiles tW tH st i b1) := rfl

theorem processMoving_redirects (env : Env) (oldTiles : Tiles) (tW tH : ℚ) (st : BState)
    (i : Nat) (b1 : Ball) :
    (processMoving env oldTiles tW tH st i b1).redirects =
      st.redirects ++
        (if redirectCond oldTiles tW tH (pickupOf env st i b1).b then [i] else []) := rfl

theorem processMoving_entries (env : Env) (oldTiles : Tiles) (tW tH : ℚ) (st : BState)
    (i : Nat) (b1 : Ball) :
    (processMoving env oldTiles tW tH st i b1).entries =
      (pickupOf env st i b1).entries ++ [.ref i] := rfl

theorem processMoving_apps (env : Env) (oldTiles : Tiles) (tW tH : ℚ) (st : BState)
    (i : Nat) (b1 : Ball) :
    (processMoving env oldTiles tW tH st i b1).apps = (pickupOf env st i b1).apps := rfl

theorem processMoving_powerUps (env : Env) (oldTiles : Tiles) (tW tH : ℚ) (st : BState)
    (i : Nat) (b1 : Ball) :
    (processMoving env oldTiles tW tH st i b1).powerUps =
      st.powerUps.filter (fun p => decide (p.id ∉ (pickupOf env st i b1).removed)) := rfl

/-- The written-back ball keeps the position, team, clone flag and countdown
of the post-pickup ball, which in turn are those of the post-boundary ball. -/
theorem finalBall_pres (env : Env) (oldTiles : Tiles) (tW tH : ℚ) (st : BState)
    (i : Nat) (b1 : Ball) :
    (finalBall env oldTiles tW tH st i b1).x = (pickupOf env st i b1).b.x ∧
    (finalBall env oldTiles tW tH st i b1).y = (pickupOf env st i b1).b.y ∧
    (finalBall env oldTiles tW tH st i b1).team = (pickupOf env st i b1).b.team ∧
    (finalBall env oldTiles tW tH st i b1).isClone = (pickupOf env st i b1).b.isClone ∧
    (finalBall env oldTiles tW tH st i b1).cloneExpires =
      (pickupOf env st i b1).b.cloneExpires := by
  rw [finalBall]
  split_ifs <;> exact ⟨rfl, rfl, rfl, rfl, rfl⟩

/-- The post-pickup ball position and identity come from the post-boundary
ball, and the shared array keeps its length through the pickup loop. -/
theorem pickupOf_pres (env : Env) (st : BState) (i : Nat) (b1 : Ball) :
    (pickupOf env st i b1).b.x =
      (boundary env.width env.height
        (moveBall ((if b1.speed > 0 then (5/2 : ℚ) else 1) * env.speedMultiplier) b1)).x ∧
    (pickupOf env st i b1).b.y =
      (boundary env.width env.height
        (moveBall ((if b1.speed > 0 then (5/2 : ℚ) else 1) * env.speedMultiplier) b1)).y ∧
    (pickupOf env st i b1).b.team = b1.team ∧
    (pickupOf env st i b1).b.isClone = b1.isClone ∧
    (pickupOf env st i b1).b.cloneExpires = b1.cloneExpires ∧
    (pickupOf env st i b1).arr.length = st.arr.length := by
  rw [pickupOf]
  have h := pickupLoop_pres env i st.powerUps
    { b := boundary env.width env.height
        (moveBall ((if b1.speed > 0 then (5/2 : ℚ) else 1) * env.speedMultiplier) b1),
      arr := st.arr, entries := st.entries, ballIdCtr := st.ballIdCtr,
      removed := [], apps := st.apps }
  exact ⟨h.1, h.2.1, h.2.2.1.trans (boundary_team _ _ _),
    h.2.2.2.1.trans (boundary_isClone _ _ _), h.2.2.2.2.1.trans (boundary_cloneExpires _ _ _),
    h.2.2.2.2.2⟩

theorem getSetSelf {α : Type _} (l : List α) (i : Nat) (a : α) (h : i < l.length) :
    (l.set i a).get? i = some a := by
  rw [List.get?_set_eq_of_lt] <;> simp [h]

theorem ltOfGet {α : Type _} (l : List α) (i : Nat) (a : α) (h : l.get? i = some a) :
    i < l.length := by
  rcases List.get?_eq_some.1 h with ⟨hl, _⟩
  exact hl

/-- C5: boundary reflection clamps each axis independently, leaves the
position inside `[radius, width-radius] × [radius, height-radius]` (whenever
that box is non-empty), and points the reflected velocity component back
inward (non-negative after a min-edge reflection, non-positive after a
max-edge reflection); consequently every non-frozen, non-expiring ball ends
its frame processing with its written-back position inside the box for the
radius it carried into the reflection. -/
theorem C5_boundary_reflection :
    (∀ (w h : ℚ) (b : Ball), 2 * b.radius ≤ w → 2 * b.radius ≤ h →
      ((b.radius ≤ (boundary w h b).x ∧ (boundary w h b).x ≤ w - b.radius ∧
        b.radius ≤ (boundary w h b).y ∧ (boundary w h b).y ≤ h - b.radius) ∧
      (b.x - b.radius < 0 → (boundary w h b).vx = |b.vx|) ∧
      (0 ≤ b.x - b.radius → w < b.x + b.radius → (boundary w h b).vx = -|b.vx|) ∧
      (b.y - b.radius < 0 → (boundary w h b).vy = |b.vy|) ∧
      (0 ≤ b.y - b.radius → h < b.y + b.radius → (boundary w h b).vy = -|b.vy|)))
    ∧ (∀ (env : Env) (oldTiles : Tiles) (tW tH : ℚ) (st : BState) (i : Nat) (b : Ball),
        st.arr.get? i = some b →
        (b.isClone = true → b.cloneExpires ≠ 1) →
        b.frozen ≤ 1 →
        2 * (tickTimers b).radius ≤ env.width →
        2 * (tickTimers b).radius ≤ env.height →
        ∃ b', (processOneBall env oldTiles tW tH st i).arr.get? i = some b' ∧
          (tickTimers b).radius ≤ b'.x ∧ b'.x ≤ env.width - (tickTimers b).radius ∧
          (tickTimers b).radius ≤ b'.y ∧ b'.y ≤ env.height - (tickTimers b).radius) := by
  constructor
  · intro w h b hw hh
    exact boundary_box w h b hw hh
  · intro env oldTiles tW tH st i b hb hcl hfz hww hwh
    have hlt : i < st.arr.length := ltOfGet _ _ _ hb
    rw [processOneBall_eq env oldTiles tW tH st i b hb,
      if_neg (fun hc => hcl hc.1 hc.2)]
    have hfz0 : ¬ (pushTrail (tickTimers (cloneTick b))).frozen > 0 := by
      rw [pushTrail_frozen, tickTimers_frozen, cloneTick_frozen]
      omega
    rw [processActive]
    rw [if_neg hfz0]
    set bt := pushTrail (tickTimers (cloneTick b)) with hbt
    set bm := moveBall ((if bt.speed > 0 then (5/2 : ℚ) else 1) * env.speedMultiplier) bt with hbm
    have hrad : bm.radius = (tickTimers b).radius := by
      rw [hbm, moveBall_radius, hbt, pushTrail_radius, tickTimers_cloneTick_radius]
    have hbox := (boundary_box env.width env.height bm
      (by rw [hrad]; exact hww) (by rw [hrad]; exact hwh)).1
    rw [hrad] at hbox
    have hfin := finalBall_pres env oldTiles tW tH st i bt
    have hpk := pickupOf_pres env st i bt
    refine ⟨finalBall env oldTiles tW tH st i bt, ?_, ?_, ?_, ?_, ?_⟩
    · rw [processMoving_arr]
      exact getSetSelf _ _ _ (by rw [hpk.2.2.2.2.2]; exact hlt)
    · rw [hfin.1, hpk.1, ← hbm]
      exact hbox.1
    · rw [hfin.1, hpk.1, ← hbm]
      exact hbox.2.1
    · rw [hfin.2.1, hpk.2.1, ← hbm]
      exact hbox.2.2.1
    · rw [hfin.2.1, hpk.2.1, ← hbm]
      exact hbox.2.2.2

/-- Witness for C5: `ballC5` crosses the low-x and high-y edges in a 20×12
world and ends its processing inside the box. -/
theorem C5_boundary_reflection_witness :
    ∃ b', (processOneBall envT createInitialTiles 1 1 stC5 0).arr.get? 0 = some b' ∧
      (tickTimers ballC5).radius ≤ b'.x ∧ b'.x ≤ envT.width - (tickTimers ballC5).radius ∧
      (tickTimers ballC5).radius ≤ b'.y ∧ b'.y ≤ envT.height - (tickTimers ballC5).radius :=
  C5_boundary_reflection.2 envT createInitialTiles 1 1 stC5 0 ballC5 rfl
    (by decide) (by decide)
    (by norm_num [tickTimers, ballC5, envT])
    (by norm_num [tickTimers, ballC5, envT])

theorem processMoving_tiles (env : Env) (oldTiles : Tiles) (tW tH : ℚ) (st : BState)
    (i : Nat) (b1 : Ball) :
    (processMoving env oldTiles tW tH st i b1).tiles =
      (convertTiles (pickupOf env st i b1).b.team (pickupOf env st i b1).b.giant
        (Int.floor ((pickupOf env st i b1).b.y / tH))
        (Int.floor ((pickupOf env st i b1).b.x / tW)) st.tiles st.hasChanges).1 := rfl

/-- Each row splits its cells between the two counting predicates. -/
theorem countP_split (row : List Tile) :
    row.countP (fun c => decide (c.team = Team.left)) +
      row.countP (fun c => decide (¬ c.team = Team.left)) = row.length := by
  induction row with
  | nil => rfl
  | cons c rest ih =>
    by_cases h : c.team = Team.left <;>
      simp [List.countP_cons, h, decide_not] at ih ⊢ <;> omega

/-- The two tile counts always add up to the number of cells. -/
theorem countLeft_add_countRight (t : Tiles) (hd : TilesDims t) :
    countLeft t + countRight t = ROWS * COLS := by
  rw [countLeft, countRight]
  have hsum : ∀ (l : Tiles),
      (l.map (fun row => row.countP (fun c => decide (c.team = Team.left)))).sum +
        (l.map (fun row => row.countP (fun c => decide (¬ c.team = Team.left)))).sum =
        (l.map List.length).sum := by
    intro l
    induction l with
    | nil => rfl
    | cons row rest ih =>
      simp only [List.map_cons, List.sum_cons]
      have := countP_split row
      omega
  rw [hsum t]
  have hconst : ∀ x ∈ t.map List.length, x = COLS := by
    intro x hx
    rcases List.mem_map.1 hx with ⟨row, hrow, hlen⟩
    rw [← hlen]
    exact hd.2 row hrow
  rw [List.sum_eq_card_nsmul (t.map List.length) COLS hconst, List.length_map, hd.1,
    smul_eq_mul]

/-- Writing one tile keeps the grid well-formed. -/
theorem setTile_dims (t : Tiles) (r c : Nat) (team : Team) (hd : TilesDims t) :
    TilesDims (setTile t r c team) := by
  obtain ⟨h1, h2⟩ := hd
  refine ⟨by rw [setTile, List.length_set]; exact h1, ?_⟩
  intro row hrow
  rw [setTile] at hrow
  by_cases hr : r < t.length
  · rcases List.mem_or_eq_of_mem_set hrow with hmem | heq
    · exact h2 row hmem
    · rw [heq, List.length_set, List.getD_eq_getElem t [] hr]
      exact h2 _ (List.getElem_mem hr)
  · rw [List.set_eq_of_length_le (le_of_not_lt hr)] at hrow
    exact h2 row hrow

/-- Converting one cell keeps the grid well-formed. -/
theorem convertCell_dims (team : Team) (r c : Int) (acc : Tiles × Bool)
    (hd : TilesDims acc.1) : TilesDims (convertCell team r c acc).1 := by
  rw [convertCell]
  split_ifs <;> first | exact hd | exact setTile_dims _ _ _ _ hd

theorem foldl_dims {β : Type _} (f : Tiles × Bool → β → Tiles × Bool)
    (hf : ∀ acc x, TilesDims acc.1 → TilesDims (f acc x).1) :
    ∀ (l : List β) (acc : Tiles × Bool), TilesDims acc.1 → TilesDims (l.foldl f acc).1 := by
  intro l
  induction l with
  | nil => intro acc h; exact h
  | cons x rest ih => intro acc h; exact ih _ (hf acc x h)

/-- The conversion block keeps the grid well-formed. -/
theorem convertTiles_dims (team : Team) (giant : Nat) (row col : Int) (t : Tiles)
    (hc : Bool) (hd : TilesDims t) :
    TilesDims (convertTiles team giant row col t hc).1 := by
  rw [convertTiles]
  exact foldl_dims _
    (fun acc dr hacc => foldl_dims _
      (fun acc2 dc hacc2 => convertCell_dims team (row + dr) (col + dc) acc2 hacc2)
      _ acc hacc)
    _ (t, hc) hd

/-- One ball's processing keeps the grid copy well-formed. -/
theorem processOneBall_tiles_dims (env : Env) (oldTiles : Tiles) (tW tH : ℚ)
    (st : BState) (i : Nat) (hd : TilesDims st.tiles) :
    TilesDims (processOneBall env oldTiles tW tH st i).tiles := by
  rw [processOneBall]
  rcases h : st.arr.get? i with _ | b
  · exact hd
  · dsimp only
    split_ifs
    · exact hd
    · rw [processActive]; split_ifs
      · exact hd
      · rw [processMoving_tiles]
        exact convertTiles_dims _ _ _ _ _ _ hd
    · rw [processActive]; split_ifs
      · exact hd
      · rw [processMoving_tiles]
        exact convertTiles_dims _ _ _ _ _ _ hd

/-- The whole ball loop keeps the grid copy well-formed. -/
theorem ballLoop_tiles_dims (env : Env) (oldTiles : Tiles) (tW tH : ℚ)
    (idxs : List Nat) (st : BState) (hd : TilesDims st.tiles) :
    TilesDims (ballLoop env oldTiles tW tH idxs st).tiles := by
  induction idxs generalizing st with
  | nil => exact hd
  | cons i rest ih =>
    rw [ballLoop]
    exact ih _ (processOneBall_tiles_dims env oldTiles tW tH st i hd)

/-- C6: the grid remains a well-formed ROWS×COLS array across a frame (cells
are only re-owned, never created or destroyed), every cell's owner is one of
the two teams by construction, and the two team counts always sum to
ROWS×COLS = 240. -/
theorem C6_tile_partition (env : Env) (g : GState) (hd : TilesDims g.tiles) :
    TilesDims (processFrame env g).1.tiles
    ∧ countLeft (processFrame env g).1.tiles + countRight (processFrame env g).1.tiles =
        ROWS * COLS
    ∧ (∀ t : Tiles, TilesDims t → countLeft t + countRight t = ROWS * COLS)
    ∧ TilesDims createInitialTiles
    ∧ (∀ c : Tile, c.team = Team.left ∨ c.team = Team.right) := by
  have hframe : TilesDims (processFrame env g).1.tiles := by
    have hloop := ballLoop_tiles_dims env g.tiles (env.width / (COLS : ℚ))
      (env.height / (ROWS : ℚ)) (List.range g.balls.length)
      (initBState g (spawnStep env (g.frameCount + 1) g.powerUps g.puIdCtr).1)
      (by exact hd)
    simp only [processFrame, initBState]
    split_ifs
    · exact hloop
    · exact hd
  refine ⟨hframe, countLeft_add_countRight _ hframe, fun t ht => countLeft_add_countRight t ht,
    by decide, fun c => ?_⟩
  rcases c with ⟨team⟩
  cases team
  · exact Or.inl rfl
  · exact Or.inr rfl

/-- Witness for C6 at an initial grid and a concrete frame. -/
theorem C6_tile_partition_witness :
    TilesDims gC6.tiles ∧
      countLeft (processFrame envT gC6).1.tiles + countRight (processFrame envT gC6).1.tiles =
        ROWS * COLS :=
  ⟨by decide, (C6_tile_partition envT gC6 (by decide)).2.1⟩

/-- C7: a split pickup spawns exactly one clone with the claimed fields and
leaves the parent otherwise unaffected; in a concrete frame where one ball
picks up one split power-up, the live ball count goes up by exactly one. -/
theorem C7_split_pickup :
    (∀ (env : Env) (i : Nat) (p : PowerUp) (s : PickupState),
      p.type = PowerUpType.split →
      distLt (s.b.x - p.x) (s.b.y - p.y) (s.b.radius + 14) →
      SplitPickupSpec env i p s)
    ∧ (processFrame envT gC7).1.balls.length = gC7.balls.length + 1 := by
  constructor
  · intro env i p s ht hdist
    rcases p with ⟨pid, px, py, ty, pst⟩
    dsimp only at ht hdist
    subst ht
    rw [SplitPickupSpec]
    refine ⟨?_, rfl, rfl, by simp only [makeClone]; ring, rfl, rfl, rfl, rfl, rfl,
      ?_, ?_, ?_⟩
    · rw [applyPowerUp, if_pos hdist]
    · rw [applyPowerUp, if_pos hdist]
    · rw [applyPowerUp, if_pos hdist]
    · rw [pickupLoop, pickupLoop, applyPowerUp, if_pos hdist]
      simp
  · norm_num [processFrame, spawnStep, initBState, ballLoop, processOneBall, processActive,
      processMoving, pickupOf, finalBall, pickupLoop, applyPowerUp, tickTimers, pushTrail,
      moveBall, boundary, magnetUpdate, makeClone, applyRedirect, convertTiles, convertCell,
      convertOffsets, redirectCond, getTile, setTile, distLt, rsqrt, nsq, magnetPullX,
      magnetPullY, createInitialTiles, gC7, bC7, puC7, envT, List.range_succ, COLS, ROWS,
      TRAIL_LENGTH, POWERUP_SPAWN_INTERVAL, POWERUP_DURATION, Int.toNat_ofNat,
      List.getElem_cons_succ, List.getElem_cons_zero, resolveEntry]

/-- Witness for C7: the concrete ball `psC7.b` sits on the split power-up
`puC7` and the split specification holds there. -/
theorem C7_split_pickup_witness :
    (puC7.type = PowerUpType.split ∧
      distLt (psC7.b.x - puC7.x) (psC7.b.y - puC7.y) (psC7.b.radius + 14)) ∧
    SplitPickupSpec envT 0 puC7 psC7 :=
  ⟨⟨rfl, by norm_num [distLt, psC7, puC7, bC7]⟩,
   C7_split_pickup.1 envT 0 puC7 psC7 rfl (by norm_num [distLt, psC7, puC7, bC7])⟩

/-- The redirect condition only reads position and team, so any two balls
agreeing there satisfy it together. -/
theorem redirectCond_eq_of (t : Tiles) (tW tH : ℚ) (b b' : Ball)
    (hx : b'.x = b.x) (hy : b'.y = b.y) (hteam : b'.team = b.team) :
    redirectCond t tW tH b' = redirectCond t tW tH b := by
  simp only [redirectCond, hx, hy, hteam]

/-- C2, counterexample: in `gC2` the left ball in slot 0 converts cell
(row 0, col 10); by the time the left clone in slot 1 runs its conversion
step, the cell already belongs to its own team (third conjunct), yet BOTH
balls are redirected — the redirect checks the frame-start snapshot, not the
in-frame grid, contradicting the claim's "never happens when a same-team
agent converted it earlier in the same frame". -/
theorem C2_redirect_counterexample :
    (processFrame envT gC2).2.redirects = [0, 1]
    ∧ (gC2.balls.getD 1 defBall).team = Team.left
    ∧ (getTile (processOneBall envT gC2.tiles 1 1 (initBState gC2 gC2.powerUps) 0).tiles
        0 10).team = Team.left := by
  refine ⟨?_, rfl, ?_⟩ <;>
    norm_num [processFrame, spawnStep, initBState, ballLoop, processOneBall, processActive,
      processMoving, pickupOf, finalBall, pickupLoop, applyPowerUp, tickTimers, pushTrail,
      moveBall, boundary, magnetUpdate, applyRedirect, convertTiles, convertCell,
      convertOffsets, redirectCond, getTile, setTile, distLt, rsqrt, nsq, magnetPullX,
      magnetPullY, createInitialTiles, gC2, ballC2a, ballC2b, envT, List.range_succ, COLS,
      ROWS, TRAIL_LENGTH, POWERUP_SPAWN_INTERVAL, Int.toNat_ofNat, List.getElem_cons_succ,
      List.getElem_cons_zero] <;>
    decide

/-- C2, amended: for every ball that is not an expiring clone and not frozen
this frame, the random redirect fires iff the cell under the written-back
ball's centre is in range and owned by the opposing team in the FRAME-START
tile snapshot (`tilesRef.current`) — not in the in-frame converted grid. -/
theorem C2_redirect_amended (env : Env) (oldTiles : Tiles) (tW tH : ℚ)
    (st : BState) (i : Nat) (b : Ball)
    (hb : st.arr.get? i = some b)
    (hcl : b.isClone = true → b.cloneExpires ≠ 1)
    (hfz : b.frozen ≤ 1) :
    RedirectIffSpec env oldTiles tW tH st i := by
  rw [RedirectIffSpec, processOneBall_eq env oldTiles tW tH st i b hb,
    if_neg (fun hc => hcl hc.1 hc.2)]
  have hfz0 : ¬ (pushTrail (tickTimers (cloneTick b))).frozen > 0 := by
    rw [pushTrail_frozen, tickTimers_frozen, cloneTick_frozen]
    omega
  rw [processActive, if_neg hfz0]
  set bt := pushTrail (tickTimers (cloneTick b)) with hbt
  have hfin := finalBall_pres env oldTiles tW tH st i bt
  have hpk := pickupOf_pres env st i bt
  refine ⟨finalBall env oldTiles tW tH st i bt, ?_, ?_⟩
  · rw [processMoving_arr]
    exact getSetSelf _ _ _ (by rw [hpk.2.2.2.2.2]; exact ltOfGet _ _ _ hb)
  · rw [processMoving_redirects]
    have heq := redirectCond_eq_of oldTiles tW tH (pickupOf env st i bt).b
      (finalBall env oldTiles tW tH st i bt) hfin.1 hfin.2.1 hfin.2.2.1
    simp only [heq]

/-- Witness for the amended C2 at a concrete one-ball state. -/
theorem C2_redirect_amended_witness :
    RedirectIffSpec envT createInitialTiles 1 1 stC2w 0 :=
  C2_redirect_amended envT createInitialTiles 1 1 stC2w 0 ballC2a rfl
    (by decide) (by decide)

set_option maxHeartbeats 3200000 in
/-- C3, counterexample: in `gC3` the left ball (slot 0) picks up the freeze
power-up, so the claim says the right ball must end the frame with
frozen == 180; but the right ball is processed after the picker in the same
frame and decrements its own freshly set timer, ending the frame with
frozen == 179. -/
theorem C3_freeze_counterexample :
    (processFrame envT gC3).2.apps = [(0, 0, PowerUpType.freeze)]
    ∧ (gC3.balls.getD 0 defBall).team = Team.left
    ∧ ((processFrame envT gC3).1.balls.getD 1 defBall).team = Team.right
    ∧ ((processFrame envT gC3).1.balls.getD 1 defBall).frozen = 179 := by
  refine ⟨?_, rfl, ?_, ?_⟩ <;>
    norm_num [processFrame, spawnStep, initBState, ballLoop, processOneBall, processActive,
      processMoving, pickupOf, finalBall, pickupLoop, applyPowerUp, applyFreeze, tickTimers,
      pushTrail, moveBall, boundary, magnetUpdate, applyRedirect, convertTiles, convertCell,
      convertOffsets, redirectCond, getTile, setTile, distLt, rsqrt, nsq, magnetPullX,
      magnetPullY, createInitialTiles, gC3, gC3e, bPC3, eC3, puC3, envT, List.range_succ,
      COLS, ROWS, TRAIL_LENGTH, POWERUP_SPAWN_INTERVAL, POWERUP_DURATION, Int.toNat_ofNat,
      List.getElem_cons_succ, List.getElem_cons_zero, resolveEntry] <;>
    decide

theorem cloneTick_isClone (b : Ball) : (cloneTick b).isClone = b.isClone := by
  simp only [cloneTick]; split_ifs <;> rfl

theorem cloneTick_cloneExpires (b : Ball) (hc : b.isClone = true) (he : 1 ≤ b.cloneExpires) :
    (cloneTick b).cloneExpires = b.cloneExpires - 1 := by
  rw [cloneTick, if_pos ⟨hc, by omega⟩]

theorem applyPowerUp_nosplit (env : Env) (i : Nat) (s : PickupState) (p : PowerUp)
    (h : p.type ≠ PowerUpType.split) :
    (applyPowerUp env i s p).entries = s.entries ∧
    (applyPowerUp env i s p).ballIdCtr = s.ballIdCtr := by
  rcases p with ⟨pid, px, py, ty, pst⟩
  dsimp only at h
  cases ty
  · exact absurd rfl h
  all_goals simp only [applyPowerUp] <;> split_ifs <;> exact ⟨rfl, rfl⟩

theorem pickupLoop_nosplit (env : Env) (i : Nat) (pus : List PowerUp) (s : PickupState)
    (h : ∀ p ∈ pus, p.type ≠ PowerUpType.split) :
    (pickupLoop env i pus s).entries = s.entries ∧
    (pickupLoop env i pus s).ballIdCtr = s.ballIdCtr := by
  induction pus generalizing s with
  | nil => exact ⟨rfl, rfl⟩
  | cons p rest ih =>
    rw [pickupLoop]
    have h1 := applyPowerUp_nosplit env i s p (h p (List.mem_cons_self p rest))
    have h2 := ih (applyPowerUp env i s p) (fun q hq => h q (List.mem_cons_of_mem p hq))
    exact ⟨h2.1.trans h1.1, h2.2.trans h1.2⟩

theorem processFrame_balls (env : Env) (g : GState) :
    (processFrame env g).1.balls =
      (ballLoop env g.tiles (env.width / (COLS : ℚ)) (env.height / (ROWS : ℚ))
        (List.range g.balls.length)
        (initBState g (spawnStep env (g.frameCount + 1) g.powerUps g.puIdCtr).1)).entries.map
        (resolveEntry
          (ballLoop env g.tiles (env.width / (COLS : ℚ)) (env.height / (ROWS : ℚ))
            (List.range g.balls.length)
            (initBState g (spawnStep env (g.frameCount + 1) g.powerUps g.puIdCtr).1)).arr) := rfl

theorem processFrame_powerUps (env : Env) (g : GState) :
    (processFrame env g).1.powerUps =
      (ballLoop env g.tiles (env.width / (COLS : ℚ)) (env.height / (ROWS : ℚ))
        (List.range g.balls.length)
        (initBState g (spawnStep env (g.frameCount + 1) g.powerUps g.puIdCtr).1)).powerUps := rfl

theorem spawnStep_nosplit (env : Env) (fc : Nat) (pus : List PowerUp) (ctr : Nat)
    (hns : ∀ p ∈ pus, p.type ≠ PowerUpType.split)
    (hsp : env.spawnType ≠ PowerUpType.split) :
    ∀ p ∈ (spawnStep env fc pus ctr).1, p.type ≠ PowerUpType.split := by
  rw [spawnStep]
  split_ifs
  · intro p hp
    rcases List.mem_append.1 hp with h | h
    · exact hns p h
    · rw [List.mem_singleton] at h
      subst h
      exact hsp
  · exact hns

theorem singleCloneFrame (env : Env) (g : GState) (b : Ball)
    (hballs : g.balls = [b]) (hc : b.isClone = true) (he : 2 ≤ b.cloneExpires)
    (hns : ∀ p ∈ g.powerUps, p.type ≠ PowerUpType.split)
    (hsp : env.spawnType ≠ PowerUpType.split) :
    ∃ b', (processFrame env g).1.balls = [b'] ∧ b'.isClone = true ∧
      b'.cloneExpires = b.cloneExpires - 1 ∧
      ∀ p ∈ (processFrame env g).1.powerUps, p.type ≠ PowerUpType.split := by
  have hpus0 := spawnStep_nosplit env (g.frameCount + 1) g.powerUps g.puIdCtr hns hsp
  set st0 := initBState g (spawnStep env (g.frameCount + 1) g.powerUps g.puIdCtr).1 with hst0
  have hrange : List.range g.balls.length = [0] := by rw [hballs]; rfl
  have harr : st0.arr = [b] := by rw [hst0, initBState, hballs]
  have hb0 : st0.arr.get? 0 = some b := by rw [harr]; rfl
  have hloop : ∀ tw th, ballLoop env g.tiles tw th (List.range g.balls.length) st0 =
      processOneBall env g.tiles tw th st0 0 := by
    intro tw th
    rw [hrange, ballLoop, ballLoop]
  have hpow : st0.powerUps = (spawnStep env (g.frameCount + 1) g.powerUps g.puIdCtr).1 := rfl
  have hstep := processOneBall_eq env g.tiles (env.width / (COLS : ℚ))
    (env.height / (ROWS : ℚ)) st0 0 b hb0
  rw [if_neg (fun hcc => by omega)] at hstep
  rw [processFrame_balls, hloop, hstep, processActive]
  have hic : (cloneTick b).isClone = true := by rw [cloneTick_isClone, hc]
  have hce : (cloneTick b).cloneExpires = b.cloneExpires - 1 :=
    cloneTick_cloneExpires b hc (by omega)
  have hpu2 : ∀ p ∈ (processFrame env g).1.powerUps, p.type ≠ PowerUpType.split := by
    rw [processFrame_powerUps, hloop, hstep, processActive]
    split_ifs
    · exact hpus0
    · rw [processMoving_powerUps]
      intro p hp
      exact hpus0 p (List.mem_of_mem_filter hp)
  split_ifs with hfz
  · refine ⟨pushTrail (tickTimers (cloneTick b)), ?_, ?_, ?_, hpu2⟩
    · show (st0.entries ++ [Entry.ref 0]).map (resolveEntry (st0.arr.set 0
        (pushTrail (tickTimers (cloneTick b))))) = _
      rw [(show st0.entries = [] from rfl), harr]
      rfl
    · rw [pushTrail_isClone, tickTimers_isClone, hic]
    · rw [pushTrail_cloneExpires, tickTimers_cloneExpires, hce]
  · set bt := pushTrail (tickTimers (cloneTick b)) with hbt
    have hnos := pickupLoop_nosplit env 0 st0.powerUps
      { b := boundary env.width env.height
          (moveBall ((if bt.speed > 0 then (5/2 : ℚ) else 1) * env.speedMultiplier) bt),
        arr := st0.arr, entries := st0.entries, ballIdCtr := st0.ballIdCtr,
        removed := [], apps := st0.apps }
      (by rw [hpow]; exact hpus0)
    have hent : (pickupOf env st0 0 bt).entries = st0.entries := by
      rw [pickupOf]; exact hnos.1
    have hlen1 : (pickupOf env st0 0 bt).arr.length = 1 := by
      rw [(pickupOf_pres env st0 0 bt).2.2.2.2.2, harr]; rfl
    rcases List.length_eq_one.1 hlen1 with ⟨x, hx⟩
    refine ⟨finalBall env g.tiles (env.width / (COLS : ℚ)) (env.height / (ROWS : ℚ)) st0 0 bt, ?_, ?_, ?_, hpu2⟩
    · rw [processMoving_entries, processMoving_arr, hent, (show st0.entries = [] from rfl), hx]
      rfl
    · have h1 := (finalBall_pres env g.tiles (env.width / (COLS : ℚ))
        (env.height / (ROWS : ℚ)) st0 0 bt).2.2.2.1
      have h2 := (pickupOf_pres env st0 0 bt).2.2.2.1
      rw [h1, h2, hbt, pushTrail_isClone, tickTimers_isClone, hic]
    · have h1 := (finalBall_pres env g.tiles (env.width / (COLS : ℚ))
        (env.height / (ROWS : ℚ)) st0 0 bt).2.2.2.2
      have h2 := (pickupOf_pres env st0 0 bt).2.2.2.2.1
      rw [h1, h2, hbt, pushTrail_cloneExpires, tickTimers_cloneExpires, hce]

theorem singleCloneExpireFrame (env : Env) (g : GState) (b : Ball)
    (hballs : g.balls = [b]) (hc : b.isClone = true) (he : b.cloneExpires = 1) :
    (processFrame env g).1.balls = [] := by
  set st0 := initBState g (spawnStep env (g.frameCount + 1) g.powerUps g.puIdCtr).1 with hst0
  have hrange : List.range g.balls.length = [0] := by rw [hballs]; rfl
  have hb0 : st0.arr.get? 0 = some b := by rw [hst0, initBState, hballs]; rfl
  rw [processFrame_balls, hrange, ballLoop, ballLoop,
    processOneBall_eq env g.tiles (env.width / (COLS : ℚ)) (env.height / (ROWS : ℚ)) st0 0 b hb0,
    if_pos ⟨hc, he⟩]
  rfl

/-- C8: one processing step of a live clone (countdown at least 2) keeps it
in the live set and decrements its countdown by exactly one, whatever else is
going on in the frame; a clone whose countdown hits 0 this frame is only
written back — no timer decay, movement, pickup or conversion happens and it
is not retained; and a freshly created clone (countdown 360) in a world
without split power-ups is alive for exactly the 360 frames after its
creation frame and removed on frame 360 — never earlier, never later. -/
theorem C8_clone_expiry :
    (∀ (env : Env) (oldTiles : Tiles) (tW tH : ℚ) (st : BState) (i : Nat) (b : Ball),
      st.arr.get? i = some b → b.isClone = true → 2 ≤ b.cloneExpires →
      CloneStepSpec env oldTiles tW tH st i b)
    ∧ (∀ (env : Env) (oldTiles : Tiles) (tW tH : ℚ) (st : BState) (i : Nat) (b : Ball),
      st.arr.get? i = some b → b.isClone = true → b.cloneExpires = 1 →
      CloneExpireSpec env oldTiles tW tH st i b)
    ∧ (∀ (envs : Nat → Env) (g0 : GState) (b : Ball),
      g0.balls = [b] → b.isClone = true → b.cloneExpires = 360 →
      (∀ k, (envs k).spawnType ≠ PowerUpType.split) →
      (∀ p ∈ g0.powerUps, p.type ≠ PowerUpType.split) →
      CloneRunSpec envs g0) := by
  refine ⟨?_, ?_, ?_⟩
  · intro env oldTiles tW tH st i b hb hc he
    rw [CloneStepSpec, processOneBall_eq env oldTiles tW tH st i b hb,
      if_neg (fun hcc => by omega), processActive]
    split_ifs with hfz
    · refine ⟨List.mem_append_right _ (List.mem_singleton_self _),
        pushTrail (tickTimers (cloneTick b)), getSetSelf _ _ _ (ltOfGet _ _ _ hb), ?_, ?_⟩
      · rw [pushTrail_isClone, tickTimers_isClone, cloneTick_isClone, hc]
      · rw [pushTrail_cloneExpires, tickTimers_cloneExpires,
          cloneTick_cloneExpires b hc (by omega)]
    · rw [processMoving_entries, processMoving_arr]
      refine ⟨List.mem_append_right _ (List.mem_singleton_self _),
        finalBall env oldTiles tW tH st i (pushTrail (tickTimers (cloneTick b))),
        getSetSelf _ _ _ (by
          rw [(pickupOf_pres env st i (pushTrail (tickTimers (cloneTick b)))).2.2.2.2.2]
          exact ltOfGet _ _ _ hb), ?_, ?_⟩
      · rw [(finalBall_pres env oldTiles tW tH st i
            (pushTrail (tickTimers (cloneTick b)))).2.2.2.1,
          (pickupOf_pres env st i (pushTrail (tickTimers (cloneTick b)))).2.2.2.1,
          pushTrail_isClone, tickTimers_isClone, cloneTick_isClone, hc]
      · rw [(finalBall_pres env oldTiles tW tH st i
            (pushTrail (tickTimers (cloneTick b)))).2.2.2.2,
          (pickupOf_pres env st i (pushTrail (tickTimers (cloneTick b)))).2.2.2.2.1,
          pushTrail_cloneExpires, tickTimers_cloneExpires,
          cloneTick_cloneExpires b hc (by omega)]
  · intro env oldTiles tW tH st i b hb hc he
    rw [CloneExpireSpec, processOneBall_eq env oldTiles tW tH st i b hb, if_pos ⟨hc, he⟩]
    exact ⟨rfl, by rw [cloneTick_cloneExpires b hc (by omega), he]⟩
  · intro envs g0 b h1 h2 h3 h4 h5
    rw [CloneRunSpec]
    have main : ∀ k, k ≤ 359 →
        ∃ b', (runFrames envs g0 k).balls = [b'] ∧ b'.isClone = true ∧
          b'.cloneExpires = 360 - k ∧
          ∀ p ∈ (runFrames envs g0 k).powerUps, p.type ≠ PowerUpType.split := by
      intro k
      induction k with
      | zero =>
        intro _
        exact ⟨b, by rw [runFrames, h1], h2, by rw [h3], by rw [runFrames]; exact h5⟩
      | succ k ih =>
        intro hk
        rcases ih (by omega) with ⟨bk, hbk, hck, hek, hpk⟩
        rcases singleCloneFrame (envs k) (runFrames envs g0 k) bk hbk hck (by omega) hpk
          (h4 k) with ⟨b', hb', hc', he', hp'⟩
        exact ⟨b', by rw [runFrames]; exact hb', hc', by rw [he', hek]; omega,
          by rw [runFrames]; exact hp'⟩
    constructor
    · intro k hk
      rcases main k hk with ⟨b', hx1, hx2, hx3, _⟩
      exact ⟨b', hx1, hx2, hx3⟩
    · rcases main 359 (by omega) with ⟨b359, hb, hc', he', _⟩
      rw [(show (360 : Nat) = 359 + 1 from rfl), runFrames]
      exact singleCloneExpireFrame (envs 359) _ b359 hb hc' (by rw [he'])

/-- Witness for C8: the concrete clone `cloneC8` stepping once, expiring at
countdown 1, and running to exactly 360 frames under the constant
environment. -/
theorem C8_clone_expiry_witness :
    CloneStepSpec envT createInitialTiles 1 1 stC8 0 cloneC8
    ∧ CloneExpireSpec envT createInitialTiles 1 1 stC8e 0 cloneC8e
    ∧ CloneRunSpec (fun _ => envT) gC8 :=
  ⟨C8_clone_expiry.1 envT createInitialTiles 1 1 stC8 0 cloneC8 rfl rfl (by decide),
   C8_clone_expiry.2.1 envT createInitialTiles 1 1 stC8e 0 cloneC8e rfl rfl rfl,
   C8_clone_expiry.2.2 (fun _ => envT) gC8 cloneC8 rfl rfl rfl (fun _ => (by decide : envT.spawnType ≠ PowerUpType.split))
     (by decide)⟩

theorem applyPowerUp_log (env : Env) (i : Nat) (s : PickupState) (p : PowerUp) :
    ((applyPowerUp env i s p).apps = s.apps ∧ (applyPowerUp env i s p).removed = s.removed) ∨
    ((applyPowerUp env i s p).apps = s.apps ++ [(i, p.id, p.type)] ∧
      (applyPowerUp env i s p).removed = s.removed ++ [p.id]) := by
  rcases p with ⟨pid, px, py, ty, pst⟩
  cases ty <;> simp only [applyPowerUp] <;> split_ifs <;>
    first | exact Or.inl ⟨rfl, rfl⟩ | exact Or.inr ⟨rfl, rfl⟩

theorem pickupLoop_log (env : Env) (i : Nat) (pus : List PowerUp) (s : PickupState) :
    ∃ ds, (pickupLoop env i pus s).apps = s.apps ++ ds ∧
      (pickupLoop env i pus s).removed = s.removed ++ appIds ds ∧
      (appIds ds).Sublist (puIds pus) := by
  induction pus generalizing s with
  | nil =>
    exact ⟨[], by simp [pickupLoop], by simp [pickupLoop, appIds], by simp [appIds, puIds]⟩
  | cons p rest ih =>
    rw [pickupLoop]
    rcases ih (applyPowerUp env i s p) with ⟨ds, h1, h2, h3⟩
    rcases applyPowerUp_log env i s p with ⟨ha, hr⟩ | ⟨ha, hr⟩
    · refine ⟨ds, by rw [h1, ha], by rw [h2, hr], ?_⟩
      exact h3.trans (List.sublist_cons_self _ _)
    · refine ⟨(i, p.id, p.type) :: ds, ?_, ?_, ?_⟩
      · rw [h1, ha]
        simp
      · rw [h2, hr, (show appIds ((i, p.id, p.type) :: ds) = p.id :: appIds ds from rfl)]
        simp
      · rw [(show appIds ((i, p.id, p.type) :: ds) = p.id :: appIds ds from rfl),
          (show puIds (p :: rest) = p.id :: puIds rest from rfl)]
        exact h3.cons₂ p.id

theorem processOneBall_log (env : Env) (oldTiles : Tiles) (tW tH : ℚ)
    (st : BState) (i : Nat) :
    ∃ ds, (processOneBall env oldTiles tW tH st i).apps = st.apps ++ ds ∧
      (appIds ds).Sublist (puIds st.powerUps) ∧
      (∀ n ∈ appIds ds, n ∉ puIds (processOneBall env oldTiles tW tH st i).powerUps) ∧
      (processOneBall env oldTiles tW tH st i).powerUps.Sublist st.powerUps := by
  have htriv : ∀ (st' : BState), st'.apps = st.apps → st'.powerUps = st.powerUps →
      ∃ ds, st'.apps = st.apps ++ ds ∧ (appIds ds).Sublist (puIds st.powerUps) ∧
        (∀ n ∈ appIds ds, n ∉ puIds st'.powerUps) ∧ st'.powerUps.Sublist st.powerUps := by
    intro st' ha hp
    exact ⟨[], by rw [ha, List.append_nil], by simp [appIds],
      by simp [appIds], by rw [hp]⟩
  rw [processOneBall]
  rcases h : st.arr.get? i with _ | b
  · exact htriv st rfl rfl
  · dsimp only
    split_ifs
    · exact htriv _ rfl rfl
    all_goals (
      rw [processActive]
      split_ifs
      · exact htriv _ rfl rfl
      · rw [processMoving_apps, processMoving_powerUps, pickupOf]
        rcases pickupLoop_log env i st.powerUps
          { b := boundary env.width env.height
              (moveBall ((if (pushTrail (tickTimers _)).speed > 0 then (5/2 : ℚ) else 1) *
                env.speedMultiplier) (pushTrail (tickTimers _))),
            arr := st.arr, entries := st.entries, ballIdCtr := st.ballIdCtr,
            removed := [], apps := st.apps } with ⟨ds, h1, h2, h3⟩
        refine ⟨ds, h1, h3, ?_, List.filter_sublist _⟩
        intro n hn hmem
        rw [puIds] at hmem
        rcases List.mem_map.1 hmem with ⟨q, hq, hqid⟩
        have := List.of_mem_filter hq
        rw [decide_eq_true_eq] at this
        apply this
        rw [h2, List.nil_append, hqid]
        exact hn)

theorem appIds_append (a b : List (Nat × Nat × PowerUpType)) :
    appIds (a ++ b) = appIds a ++ appIds b := List.map_append _ _ _

theorem processOneBall_inv (env : Env) (oldTiles : Tiles) (tW tH : ℚ)
    (st : BState) (i : Nat) (P0 : List PowerUp) (hP : (puIds P0).Nodup)
    (hI : PickupInv P0 st) : PickupInv P0 (processOneBall env oldTiles tW tH st i) := by
  obtain ⟨hnd, hsub, hdisj, hin⟩ := hI
  rcases processOneBall_log env oldTiles tW tH st i with ⟨ds, h1, h2, h3, h4⟩
  have hds_in : (appIds ds).Sublist (puIds P0) := h2.trans (hsub.map _)
  have hds_nd : (appIds ds).Nodup := hds_in.nodup hP
  refine ⟨?_, h4.trans hsub, ?_, ?_⟩
  · rw [h1, appIds_append, List.nodup_append]
    exact ⟨hnd, hds_nd, fun a ha hb => hdisj a ha (h2.subset hb)⟩
  · intro n hn
    rw [h1, appIds_append, List.mem_append] at hn
    rcases hn with hn | hn
    · intro hmem
      exact hdisj n hn ((h4.map _).subset hmem)
    · exact h3 n hn
  · intro n hn
    rw [h1, appIds_append, List.mem_append] at hn
    rcases hn with hn | hn
    · exact hin n hn
    · exact hds_in.subset hn

theorem ballLoop_inv (env : Env) (oldTiles : Tiles) (tW tH : ℚ)
    (idxs : List Nat) (st : BState) (P0 : List PowerUp) (hP : (puIds P0).Nodup)
    (hI : PickupInv P0 st) : PickupInv P0 (ballLoop env oldTiles tW tH idxs st) := by
  induction idxs generalizing st with
  | nil => exact hI
  | cons i rest ih =>
    rw [ballLoop]
    exact ih _ (processOneBall_inv env oldTiles tW tH st i P0 hP hI)

theorem processFrame_apps (env : Env) (g : GState) :
    (processFrame env g).2.apps =
      (ballLoop env g.tiles (env.width / (COLS : ℚ)) (env.height / (ROWS : ℚ))
        (List.range g.balls.length)
        (initBState g (spawnStep env (g.frameCount + 1) g.powerUps g.puIdCtr).1)).apps := rfl

theorem processFrame_puIdCtr (env : Env) (g : GState) :
    (processFrame env g).1.puIdCtr =
      (spawnStep env (g.frameCount + 1) g.powerUps g.puIdCtr).2 := rfl

theorem spawnStep_inv (env : Env) (fc : Nat) (pus : List PowerUp) (ctr : Nat)
    (hnd : (puIds pus).Nodup) (hlt : ∀ p ∈ pus, p.id < ctr) :
    (puIds (spawnStep env fc pus ctr).1).Nodup ∧
    (∀ p ∈ (spawnStep env fc pus ctr).1, p.id < (spawnStep env fc pus ctr).2) ∧
    (∀ p ∈ (spawnStep env fc pus ctr).1, p.id ∈ puIds pus ∨ p.id = ctr) ∧
    ctr ≤ (spawnStep env fc pus ctr).2 := by
  rw [spawnStep]
  split_ifs
  · refine ⟨?_, ?_, ?_, Nat.le_succ ctr⟩
    · rw [(show puIds (pus ++ [spawnPowerUp env.width env.height env.spawnU env.spawnV
          env.spawnType ctr env.now]) = puIds pus ++ [ctr] from by
          rw [puIds, List.map_append]; rfl),
        List.nodup_append]
      refine ⟨hnd, List.nodup_singleton ctr, ?_⟩
      intro a ha hb
      rw [List.mem_singleton] at hb
      rcases List.mem_map.1 ha with ⟨p, hp, hpid⟩
      have := hlt p hp
      omega
    · intro p hp
      rcases List.mem_append.1 hp with h | h
      · have := hlt p h
        omega
      · rw [List.mem_singleton] at h
        subst h
        exact Nat.lt_succ_self ctr
    · intro p hp
      rcases List.mem_append.1 hp with h | h
      · exact Or.inl (List.mem_map_of_mem _ h)
      · rw [List.mem_singleton] at h
        subst h
        exact Or.inr rfl
  · exact ⟨hnd, hlt, fun p hp => Or.inl (List.mem_map_of_mem _ hp), Nat.le_refl ctr⟩

theorem processFrame_log (env : Env) (g : GState) (hg : GInv g) :
    GInv (processFrame env g).1
    ∧ (appIds (processFrame env g).2.apps).Nodup
    ∧ (∀ n ∈ appIds (processFrame env g).2.apps, n ∉ puIds (processFrame env g).1.powerUps)
    ∧ (∀ n ∈ appIds (processFrame env g).2.apps, n ∈ puIds g.powerUps ∨ n = g.puIdCtr)
    ∧ (∀ n ∈ appIds (processFrame env g).2.apps, n < (processFrame env g).1.puIdCtr)
    ∧ (∀ p ∈ (processFrame env g).1.powerUps, p.id ∈ puIds g.powerUps ∨ p.id = g.puIdCtr)
    ∧ g.puIdCtr ≤ (processFrame env g).1.puIdCtr := by
  have hs := spawnStep_inv env (g.frameCount + 1) g.powerUps g.puIdCtr hg.1 hg.2
  have hI0 : PickupInv (spawnStep env (g.frameCount + 1) g.powerUps g.puIdCtr).1
      (initBState g (spawnStep env (g.frameCount + 1) g.powerUps g.puIdCtr).1) := by
    refine ⟨List.nodup_nil, List.Sublist.refl _, ?_, ?_⟩ <;>
      (intro n hn; exact absurd hn (List.not_mem_nil n))
  have hIE := ballLoop_inv env g.tiles (env.width / (COLS : ℚ)) (env.height / (ROWS : ℚ))
    (List.range g.balls.length) _ _ hs.1 hI0
  obtain ⟨hnd, hsub, hdisj, hin⟩ := hIE
  have hmemP0 : ∀ n, n ∈ puIds (spawnStep env (g.frameCount + 1) g.powerUps g.puIdCtr).1 →
      (n ∈ puIds g.powerUps ∨ n = g.puIdCtr) ∧ n < (spawnStep env (g.frameCount + 1)
        g.powerUps g.puIdCtr).2 := by
    intro n hn
    rcases List.mem_map.1 hn with ⟨p, hp, hpid⟩
    subst hpid
    exact ⟨hs.2.2.1 p hp, hs.2.1 p hp⟩
  refine ⟨⟨(hsub.map _).nodup hs.1, ?_⟩, hnd, ?_, ?_, ?_, ?_, ?_⟩
  · intro p hp
    rw [processFrame_powerUps] at hp
    rw [processFrame_puIdCtr]
    exact hs.2.1 p (hsub.subset hp)
  · intro n hn
    rw [processFrame_apps] at hn
    rw [processFrame_powerUps]
    exact hdisj n hn
  · intro n hn
    rw [processFrame_apps] at hn
    exact (hmemP0 n (hin n hn)).1
  · intro n hn
    rw [processFrame_apps] at hn
    rw [processFrame_puIdCtr]
    exact (hmemP0 n (hin n hn)).2
  · intro p hp
    rw [processFrame_powerUps] at hp
    exact (hmemP0 p.id (List.mem_map_of_mem _ (hsub.subset hp))).1
  · rw [processFrame_puIdCtr]
    exact hs.2.2.2

theorem runApps_inv (envs : Nat → Env) (g0 : GState) (hg : GInv g0) :
    ∀ n, GInv (runFrames envs g0 n) ∧
      (appIds (runApps envs g0 n)).Nodup ∧
      (∀ a ∈ appIds (runApps envs g0 n),
        a ∉ puIds (runFrames envs g0 n).powerUps ∧ a < (runFrames envs g0 n).puIdCtr) := by
  intro n
  induction n with
  | zero =>
    refine ⟨hg, by rw [runApps]; exact List.nodup_nil, ?_⟩
    intro a ha
    rw [runApps] at ha
    exact absurd ha (List.not_mem_nil a)
  | succ n ih =>
    obtain ⟨hgn, hnd, hold⟩ := ih
    have hf := processFrame_log (envs n) (runFrames envs g0 n) hgn
    refine ⟨by rw [runFrames]; exact hf.1, ?_, ?_⟩
    · rw [runApps, appIds_append, List.nodup_append]
      refine ⟨hnd, hf.2.1, ?_⟩
      intro a ha hb
      rcases hf.2.2.2.1 a hb with hmem | hctr
      · exact (hold a ha).1 hmem
      · have := (hold a ha).2
        omega
    · intro a ha
      rw [runApps, appIds_append, List.mem_append] at ha
      rw [runFrames]
      rcases ha with ha | ha
      · constructor
        · intro hmem
          rcases List.mem_map.1 hmem with ⟨p, hp, hpid⟩
          rcases hf.2.2.2.2.2.1 p hp with h | h
          · exact (hold a ha).1 (by rw [← hpid]; exact h)
          · have := (hold a ha).2
            omega
        · exact lt_of_lt_of_le (hold a ha).2 hf.2.2.2.2.2.2
      · exact ⟨hf.2.2.1 a ha, hf.2.2.2.2.1 a ha⟩

/-- C10: each ball's pickup pass appends applications whose power-up ids are
drawn (each at most once) from the registry it sees, and every consumed id is
gone from the registry it hands to the next ball; consequently, over any run
from a well-formed state (distinct ids below the id counter), the ids in the
concatenated application log never repeat — every power-up instance is
consumed by at most one agent, ever. -/
theorem C10_powerup_single_use :
    (∀ (env : Env) (oldTiles : Tiles) (tW tH : ℚ) (st : BState) (i : Nat),
      ∃ ds, (processOneBall env oldTiles tW tH st i).apps = st.apps ++ ds ∧
        (appIds ds).Sublist (puIds st.powerUps) ∧
        ∀ n ∈ appIds ds, n ∉ puIds (processOneBall env oldTiles tW tH st i).powerUps)
    ∧ (∀ (envs : Nat → Env) (g0 : GState), GInv g0 →
        ∀ n, (appIds (runApps envs g0 n)).Nodup) := by
  constructor
  · intro env oldTiles tW tH st i
    rcases processOneBall_log env oldTiles tW tH st i with ⟨ds, h1, h2, h3, _⟩
    exact ⟨ds, h1, h2, h3⟩
  · intro envs g0 hg n
    exact (runApps_inv envs g0 hg n).2.1

/-- Witness for C10: a concrete two-ball, two-power-up state run for two
frames has a duplicate-free application log. -/
theorem C10_powerup_single_use_witness :
    GInv gC10 ∧ (appIds (runApps (fun _ => envT) gC10 2)).Nodup :=
  ⟨by decide, C10_powerup_single_use.2 (fun _ => envT) gC10 (by decide) 2⟩

theorem cloneTick_cloneExpires_nonclone (b : Ball) (h : b.isClone = false) :
    (cloneTick b).cloneExpires = b.cloneExpires := by
  simp [cloneTick, h]

theorem singleFrozenFrame (env : Env) (g : GState) (b : Ball)
    (hballs : g.balls = [b]) (hfz : 2 ≤ b.frozen)
    (hcl : b.isClone = true → 2 ≤ b.cloneExpires) :
    (processFrame env g).1.balls = [pushTrail (tickTimers (cloneTick b))] := by
  set st0 := initBState g (spawnStep env (g.frameCount + 1) g.powerUps g.puIdCtr).1 with hst0
  have hrange : List.range g.balls.length = [0] := by rw [hballs]; rfl
  have harr : st0.arr = [b] := by rw [hst0, initBState, hballs]
  have hb0 : st0.arr.get? 0 = some b := by rw [harr]; rfl
  rw [processFrame_balls, hrange, ballLoop, ballLoop,
    processOneBall_eq env g.tiles (env.width / (COLS : ℚ)) (env.height / (ROWS : ℚ)) st0 0 b hb0,
    if_neg (fun hcc => by have := hcl hcc.1; omega),
    processActive,
    if_pos (by rw [pushTrail_frozen, tickTimers_frozen, cloneTick_frozen]; omega)]
  show (st0.entries ++ [Entry.ref 0]).map (resolveEntry (st0.arr.set 0
    (pushTrail (tickTimers (cloneTick b))))) = _
  rw [(show st0.entries = [] from rfl), harr]
  rfl

/-- C3, amended: a freeze pickup sets frozen = 180 on every opposing ball in
the frame's shared ball array at the moment of the pickup (an opposing agent
processed after the picker then applies its own per-frame decrement, ending
the frame at 179, as the counterexample shows concretely); any agent — clone
or not — that is not removed by clone expiry this frame and whose frozen
timer is still positive after its per-frame decrement skips all motion,
collision and conversion, so its position is unchanged that frame; and,
run-level, a frozen agent stays at its original position with its counter
going down by one per frame for the first `frozen - 1` frames, until the
counter runs out (for a clone, as long as clone expiry has not removed it). -/
theorem C3_freeze_amended :
    (∀ (env : Env) (i : Nat) (p : PowerUp) (s : PickupState),
      p.type = PowerUpType.freeze →
      distLt (s.b.x - p.x) (s.b.y - p.y) (s.b.radius + 14) →
      FreezePickupSpec env i p s)
    ∧ (∀ (env : Env) (oldTiles : Tiles) (tW tH : ℚ) (st : BState) (i : Nat) (b : Ball),
        st.arr.get? i = some b → (b.isClone = true → b.cloneExpires ≠ 1) → 2 ≤ b.frozen →
        FrozenSkipSpec env oldTiles tW tH st i b)
    ∧ (∀ (envs : Nat → Env) (g0 : GState) (b : Ball),
        g0.balls = [b] → FrozenRunSpec envs g0 b) := by
  refine ⟨?_, ?_, ?_⟩
  · intro env i p s ht hdist
    rcases p with ⟨pid, px, py, ty, pst⟩
    dsimp only at ht hdist
    subst ht
    rw [FreezePickupSpec]
    constructor
    · rw [applyPowerUp, if_pos hdist]
    · intro j o ho
      rw [applyFreeze, List.get?_map, ho]
      rfl
  · intro env oldTiles tW tH st i b hb hcl hfz
    rw [FrozenSkipSpec, processOneBall_eq env oldTiles tW tH st i b hb,
      if_neg (fun hc => hcl hc.1 hc.2),
      processActive,
      if_pos (by rw [pushTrail_frozen, tickTimers_frozen, cloneTick_frozen]; omega)]
    exact ⟨rfl, by rw [pushTrail_x, tickTimers_x, cloneTick_x],
      by rw [pushTrail_y, tickTimers_y, cloneTick_y],
      by rw [pushTrail_frozen, tickTimers_frozen, cloneTick_frozen]⟩
  · intro envs g0 b hballs
    rw [FrozenRunSpec]
    have main : ∀ k, k + 1 ≤ b.frozen → (b.isClone = true → k + 1 ≤ b.cloneExpires) →
        ∃ b', (runFrames envs g0 k).balls = [b'] ∧ b'.x = b.x ∧ b'.y = b.y ∧
          b'.frozen = b.frozen - k ∧ b'.isClone = b.isClone ∧
          b'.cloneExpires = (if b.isClone = true then b.cloneExpires - k else b.cloneExpires) := by
      intro k
      induction k with
      | zero =>
        intro _ _
        exact ⟨b, by rw [runFrames, hballs], rfl, rfl, by omega, rfl, by split_ifs <;> omega⟩
      | succ k ih =>
        intro hf hc
        rcases ih (by omega) (fun h => by have := hc h; omega) with
          ⟨bk, hbk, hx, hy, hfzk, hick, hcek⟩
        have hkfz : 2 ≤ bk.frozen := by rw [hfzk]; omega
        have hkcl : bk.isClone = true → 2 ≤ bk.cloneExpires := by
          intro h
          rw [hick] at h
          rw [hcek, if_pos h]
          have := hc h
          omega
        have hstep := singleFrozenFrame (envs k) (runFrames envs g0 k) bk hbk hkfz hkcl
        refine ⟨pushTrail (tickTimers (cloneTick bk)), ?_, ?_, ?_, ?_, ?_, ?_⟩
        · rw [runFrames]; exact hstep
        · rw [pushTrail_x, tickTimers_x, cloneTick_x, hx]
        · rw [pushTrail_y, tickTimers_y, cloneTick_y, hy]
        · rw [pushTrail_frozen, tickTimers_frozen, cloneTick_frozen, hfzk]; omega
        · rw [pushTrail_isClone, tickTimers_isClone, cloneTick_isClone, hick]
        · by_cases hbi : b.isClone = true
          · have hki : bk.isClone = true := by rw [hick, hbi]
            rw [if_pos hbi, pushTrail_cloneExpires, tickTimers_cloneExpires,
              cloneTick_cloneExpires bk hki (by rw [hcek, if_pos hbi]; have := hc hbi; omega),
              hcek, if_pos hbi]
            omega
          · have hbi2 : b.isClone = false := by
              cases h : b.isClone
              · rfl
              · exact absurd h hbi
            have hki : bk.isClone = false := by rw [hick, hbi2]
            rw [if_neg hbi, pushTrail_cloneExpires, tickTimers_cloneExpires,
              cloneTick_cloneExpires_nonclone bk hki, hcek, if_neg hbi]
    intro k h1 h2
    rcases main k h1 h2 with ⟨b', ha, hxb, hyb, hfb, _, _⟩
    exact ⟨b', ha, hxb, hyb, hfb⟩

/-- Witness for the amended C3: the concrete freeze pickup of `psC3`, the
frozen enemy `eC3frozen` skipping its frame, and the run over the world
`gFz` holding only that frozen enemy. -/
theorem C3_freeze_amended_witness :
    FreezePickupSpec envT 0 puC3 psC3 ∧
    FrozenSkipSpec envT createInitialTiles 1 1 stC3w 0 eC3frozen ∧
    FrozenRunSpec (fun _ => envT) gFz eC3frozen :=
  ⟨C3_freeze_amended.1 envT 0 puC3 psC3 rfl (by norm_num [distLt, psC3, puC3, bPC3]),
   C3_freeze_amended.2.1 envT createInitialTiles 1 1 stC3w 0 eC3frozen rfl
     (by intro h; exact absurd h (by decide)) (by decide),
   C3_freeze_amended.2.2 (fun _ => envT) gFz eC3frozen rfl⟩
